import Mathlib

/-!
# chaosmeta: fault injectors (process-kill, diskio-limit, file-append)

A shallow embedding of the injector methods of
`pkg/injector/process/kill.go`, `pkg/injector/diskio/limit.go` and
`chaosmetad/pkg/injector/file/append.go`.

Conventions of the embedding.

* A Go `error` is its message (`none` is `nil`).
* The operating system is an explicit state `σ` that is passed through every
  method.  The helpers of package `utils` (and of `filesys`, and the methods of
  the embedded `BaseInjector`) are not part of the sources under study; they are
  the fields of a record of operations over `σ`.  A helper that only inspects
  the system is a function of the state, a helper that changes it returns
  the new state.
* Every method returns an `Outcome`: the returned error, the state of the
  system afterwards and the helper calls made, in order, each with the error
  the helper returned.
* A method with a pointer receiver that assigns to a field of the injector
  also returns the injector afterwards.
-/

namespace chaosmeta

/-- A Go `error` value that is not `nil`, identified with its message. -/
abbrev Error := String

/-- The fields of `BaseInjector.Info` that the injectors read. -/
structure Info where
  Uid : String
  ContainerRuntime : String
  ContainerId : String
  deriving DecidableEq, Repr

/-- The embedded `injector.BaseInjector`. -/
structure BaseInjector where
  Info : Info
  deriving DecidableEq, Repr

/-- Result of running a method: returned error, system state afterwards, and
the helper calls performed (oldest first) with the error each one returned. -/
structure Outcome (σ κ : Type) where
  err : Option Error
  world : σ
  calls : List (κ × Option Error)

/-- Go's `%d` for an `int`. -/
def fmtInt (n : Int) : String := toString n

/-- Go's `%v` for a `[]int`: the elements separated by blanks, in brackets. -/
def fmtIntList (l : List Int) : String :=
  "[" ++ " ".intercalate (l.map fmtInt) ++ "]"

/-- Go's `unicode.IsSpace`. -/
def isSpace (c : Char) : Bool :=
  let n := c.toNat
  n == 0x09 || n == 0x0A || n == 0x0B || n == 0x0C || n == 0x0D || n == 0x20 ||
  n == 0x85 || n == 0xA0 || n == 0x1680 || (0x2000 ≤ n && n ≤ 0x200A) ||
  n == 0x2028 || n == 0x2029 || n == 0x202F || n == 0x205F || n == 0x3000

/-- Go's `strings.TrimSpace`: drop the leading and the trailing white space. -/
def TrimSpace (s : String) : String :=
  String.mk (((s.data.dropWhile isSpace).reverse.dropWhile isSpace).reverse)

/-! ## process-kill (`pkg/injector/process/kill.go`) -/

namespace process

/-- Modelled from the spec: the constant `utils.SIGKILL`, which is declared
outside the sources under study; the specification gives SIGKILL=9. -/
def SIGKILL : Int := 9

structure KillArgs where
  Pid : Int
  Key : String
  Signal : Int
  RecoverCmd : String
  deriving DecidableEq, Repr

structure KillRuntime where
  deriving DecidableEq, Repr

structure KillInjector where
  Base : BaseInjector
  Args : KillArgs
  Runtime : KillRuntime
  deriving DecidableEq, Repr

/-- The helper calls a process-kill method can make. -/
inductive Call where
  | ExistPid (pid : Int)
  | ExistProcessByKey (key : String)
  | KillPidWithSignal (pid : Int) (signal : Int)
  | KillProcessByKey (key : String) (signal : Int)
  | StartBashCmd (cmd : String)
  | BaseValidator
  deriving DecidableEq, Repr

/-- The helpers used by `kill.go`, over a system state `σ`. -/
structure Utils (σ : Type) where
  ExistPid : Int → σ → Bool × Option Error
  ExistProcessByKey : String → σ → Bool × Option Error
  KillPidWithSignal : Int → Int → σ → Option Error × σ
  KillProcessByKey : String → Int → σ → Option Error × σ
  StartBashCmd : String → σ → Option Error × σ
  BaseSetDefault : BaseInjector → BaseInjector
  BaseValidator : BaseInjector → σ → Option Error × σ
  BaseRecover : BaseInjector → σ → Option Error

/-- `KillInjector.SetDefault`. -/
def SetDefault {σ : Type} (u : Utils σ) (i : KillInjector) : KillInjector :=
  let i := { i with Base := u.BaseSetDefault i.Base }
  if i.Args.Signal = 0 then
    { i with Args := { i.Args with Signal := SIGKILL } }
  else i

/-- `KillInjector.Validator`. -/
def Validator {σ : Type} (u : Utils σ) (i : KillInjector) (w : σ) : Outcome σ Call :=
  if i.Args.Pid < 0 then
    ⟨some "\"pid\" can not less than 0", w, []⟩
  else if i.Args.Pid = 0 ∧ i.Args.Key = "" then
    ⟨some "must provide \"pid\" or \"key\"", w, []⟩
  else if i.Args.Signal ≤ 0 then
    ⟨some ("signal[" ++ fmtInt i.Args.Signal ++ "] is invalid, must larget than 0"), w, []⟩
  else if i.Args.Pid > 0 then
    match u.ExistPid i.Args.Pid w with
    | (_, some e) =>
      ⟨some ("check pid[" ++ fmtInt i.Args.Pid ++ "] exist error: " ++ e), w,
        [(Call.ExistPid i.Args.Pid, some e)]⟩
    | (false, none) =>
      ⟨some ("pid[" ++ fmtInt i.Args.Pid ++ "] not exist"), w,
        [(Call.ExistPid i.Args.Pid, none)]⟩
    | (true, none) =>
      let r := u.BaseValidator i.Base w
      ⟨r.1, r.2, [(Call.ExistPid i.Args.Pid, none), (Call.BaseValidator, r.1)]⟩
  else
    match u.ExistProcessByKey i.Args.Key w with
    | (_, some e) =>
      ⟨some ("check pid by key[" ++ i.Args.Key ++ "] error: " ++ e), w,
        [(Call.ExistProcessByKey i.Args.Key, some e)]⟩
    | (false, none) =>
      ⟨some ("no process grep by key[" ++ i.Args.Key ++ "]"), w,
        [(Call.ExistProcessByKey i.Args.Key, none)]⟩
    | (true, none) =>
      let r := u.BaseValidator i.Base w
      ⟨r.1, r.2, [(Call.ExistProcessByKey i.Args.Key, none), (Call.BaseValidator, r.1)]⟩

/-- `KillInjector.Inject`. -/
def Inject {σ : Type} (u : Utils σ) (i : KillInjector) (w : σ) : Outcome σ Call :=
  if i.Args.Pid > 0 then
    let r := u.KillPidWithSignal i.Args.Pid i.Args.Signal w
    ⟨r.1, r.2, [(Call.KillPidWithSignal i.Args.Pid i.Args.Signal, r.1)]⟩
  else
    let r := u.KillProcessByKey i.Args.Key i.Args.Signal w
    ⟨r.1, r.2, [(Call.KillProcessByKey i.Args.Key i.Args.Signal, r.1)]⟩

/-- `KillInjector.Recover`. -/
def Recover {σ : Type} (u : Utils σ) (i : KillInjector) (w : σ) : Outcome σ Call :=
  if u.BaseRecover i.Base w = none then
    ⟨none, w, []⟩
  else if i.Args.RecoverCmd = "" then
    ⟨none, w, []⟩
  else
    let r := u.StartBashCmd i.Args.RecoverCmd w
    ⟨r.1, r.2, [(Call.StartBashCmd i.Args.RecoverCmd, r.1)]⟩

/-- Whether a call sends a signal. -/
def Call.isSignal : Call → Bool
  | Call.KillPidWithSignal _ _ => true
  | Call.KillProcessByKey _ _ => true
  | _ => false

/-- A small concrete system for the process-kill helpers: the live pids and
the log of what was signalled or executed. -/
structure ProcState where
  live : List Int
  signalled : List (Int × Int)
  executed : List String
  deriving DecidableEq, Repr

/-- Helpers over `ProcState`: a pid exists when it is live; a signal to a live
pid is logged, one to a dead pid fails; keys match nothing. -/
def procUtils : Utils ProcState where
  ExistPid := fun pid w => (decide (pid ∈ w.live), none)
  ExistProcessByKey := fun _ _ => (false, none)
  KillPidWithSignal := fun pid sig w =>
    if pid ∈ w.live then (none, { w with signalled := w.signalled ++ [(pid, sig)] })
    else (some "no such process", w)
  KillProcessByKey := fun _ _ w => (some "no process found", w)
  StartBashCmd := fun cmd w => (none, { w with executed := w.executed ++ [cmd] })
  BaseSetDefault := fun b => b
  BaseValidator := fun b w => (if b.Info.Uid = "" then some "uid is empty" else none, w)
  BaseRecover := fun b _ => if b.Info.Uid = "" then none else some "need to recover"

end process

/-! ## diskio-limit (`pkg/injector/diskio/limit.go`) -/

namespace diskio

structure LimitArgs where
  PidList : String
  Key : String
  DevList : String
  ReadBytes : String
  WriteBytes : String
  ReadIO : Int
  WriteIO : Int
  deriving DecidableEq, Repr

/-- The Go `map[int]string` is kept as an association list read with
`List.lookup`; the `nil` map is `[]`. -/
structure LimitRuntime where
  OldCgroupMap : List (Int × String)
  deriving DecidableEq, Repr

structure LimitInjector where
  Base : BaseInjector
  Args : LimitArgs
  Runtime : LimitRuntime
  deriving DecidableEq, Repr

/-- The helper calls on the system a diskio-limit method can make. -/
inductive Call where
  | GetPidListByListStrAndKey (pidList : String) (key : String)
  | CheckPidListCgroup (pids : List Int)
  | BaseValidator
  | GetPidListCurCgroup (pids : List Int)
  | NewCgroup (path : String)
  | MovePidListToCgroup (pids : List Int) (path : String)
  | ExistPath (path : String)
  | GetPidStrListByCgroup (path : String)
  | MoveToCgroup (pid : Int) (path : String)
  | RemoveCgroup (path : String)
  deriving DecidableEq, Repr

/-- The helpers and constants used by `limit.go`, over a system state `σ`;
`Dev` is the type of a parsed device, `Cfg` the type of a cgroup
configuration.  `TmpCgroup` is the package constant naming the default bucket,
`BlkioPath` and `BlkioCgroupName` are the constants of package `utils`. -/
structure Utils (σ Dev Cfg : Type) where
  BlkioPath : String
  BlkioCgroupName : String
  TmpCgroup : String
  GetPidListByListStrAndKey : String → String → σ → List Int × Option Error
  CheckPidListCgroup : List Int → σ → Option Error
  GetDevList : String → List Dev × Option Error
  GetBytes : String → Int × Option Error
  GetPidListCurCgroup : List Int → σ → List (Int × String) × Option Error
  GetBlkioCPath : String → String
  GetBlkioConfig : List Dev → String → String → Int → Int → String → Cfg
  NewCgroup : String → Cfg → σ → Option Error × σ
  MovePidListToCgroup : List Int → String → σ → Option Error × σ
  ExistPath : String → σ → Bool × Option Error
  GetPidStrListByCgroup : String → σ → List Int × Option Error
  MoveToCgroup : Int → String → σ → Option Error × σ
  RemoveCgroup : String → σ → Option Error × σ
  BaseValidator : BaseInjector → σ → Option Error × σ
  BaseRecover : BaseInjector → σ → Option Error

variable {σ Dev Cfg : Type}

/-- The last part of `LimitInjector.Validator` (the checks of the limits and
the call of the base validator), after `DevList` has been accepted; `pre` are
the calls made so far. -/
def validateLimits (u : Utils σ Dev Cfg) (i : LimitInjector) (w : σ)
    (pre : List (Call × Option Error)) : Outcome σ Call :=
  if i.Args.ReadBytes = "" ∧ i.Args.WriteBytes = "" ∧ i.Args.ReadIO ≤ 0 ∧ i.Args.WriteIO ≤ 0 then
    ⟨some "must provide at least one valid args of: read-bytes、write-bytes、read-io、write-io",
      w, pre⟩
  else
    match (if i.Args.ReadBytes ≠ "" then (u.GetBytes i.Args.ReadBytes).2 else none) with
    | some e =>
      ⟨some ("\"read-bytes\"[" ++ i.Args.ReadBytes ++ "] is invalid: " ++ e), w, pre⟩
    | none =>
      match (if i.Args.WriteBytes ≠ "" then (u.GetBytes i.Args.WriteBytes).2 else none) with
      | some e =>
        ⟨some ("\"write-bytes\"[" ++ i.Args.WriteBytes ++ "] is invalid: " ++ e), w, pre⟩
      | none =>
        let r := u.BaseValidator i.Base w
        ⟨r.1, r.2, pre ++ [(Call.BaseValidator, r.1)]⟩

/-- `LimitInjector.Validator`; returns the injector as the call leaves it. -/
def Validator (u : Utils σ Dev Cfg) (i : LimitInjector) (w : σ) :
    LimitInjector × Outcome σ Call :=
  match u.GetPidListByListStrAndKey i.Args.PidList i.Args.Key w with
  | (_, some e) =>
    (i, ⟨some ("\"pid-list\" or \"key\" is invalid: " ++ e), w,
      [(Call.GetPidListByListStrAndKey i.Args.PidList i.Args.Key, some e)]⟩)
  | (pidList, none) =>
    match u.CheckPidListCgroup pidList w with
    | some e =>
      (i, ⟨some ("check cgroup of " ++ fmtIntList pidList ++ " error: " ++ e), w,
        [(Call.GetPidListByListStrAndKey i.Args.PidList i.Args.Key, none),
         (Call.CheckPidListCgroup pidList, some e)]⟩)
    | none =>
      let i := { i with Args := { i.Args with DevList := TrimSpace i.Args.DevList } }
      match (u.GetDevList i.Args.DevList).2 with
      | some e =>
        (i, ⟨some ("\"dev-list\"[" ++ i.Args.DevList ++ "] is invalid: " ++ e), w,
          [(Call.GetPidListByListStrAndKey i.Args.PidList i.Args.Key, none),
           (Call.CheckPidListCgroup pidList, none)]⟩)
      | none =>
        (i, validateLimits u i w
          [(Call.GetPidListByListStrAndKey i.Args.PidList i.Args.Key, none),
           (Call.CheckPidListCgroup pidList, none)])

/-- The `for _, pid := range pidList` loop of `LimitInjector.Recover`: the
error returned from inside the loop (`none` when the loop runs to its end),
the state and the calls. -/
def recoverLoop (u : Utils σ Dev Cfg) (i : LimitInjector) :
    List Int → σ → Outcome σ Call
  | [], w => ⟨none, w, []⟩
  | pid :: rest, w =>
    let oldPath :=
      match i.Runtime.OldCgroupMap.lookup pid with
      | some p => p
      | none => u.TmpCgroup
    let r := u.MoveToCgroup pid (u.BlkioPath ++ oldPath) w
    match r.1 with
    | some e =>
      ⟨some ("recover pid[" ++ fmtInt pid ++ "] error: " ++ e), r.2,
        [(Call.MoveToCgroup pid (u.BlkioPath ++ oldPath), some e)]⟩
    | none =>
      let t := recoverLoop u i rest r.2
      ⟨t.err, t.world, (Call.MoveToCgroup pid (u.BlkioPath ++ oldPath), none) :: t.calls⟩

/-- `LimitInjector.Recover`. -/
def Recover (u : Utils σ Dev Cfg) (i : LimitInjector) (w : σ) : Outcome σ Call :=
  if u.BaseRecover i.Base w = none then
    ⟨none, w, []⟩
  else
    let cgroupPath := u.GetBlkioCPath i.Base.Info.Uid
    match u.ExistPath cgroupPath w with
    | (_, some e) =>
      ⟨some ("check cgroup[" ++ cgroupPath ++ "] exist error: " ++ e), w,
        [(Call.ExistPath cgroupPath, some e)]⟩
    | (false, none) => ⟨none, w, [(Call.ExistPath cgroupPath, none)]⟩
    | (true, none) =>
      match u.GetPidStrListByCgroup cgroupPath w with
      | (_, some e) =>
        ⟨some ("fail to get pid from cgroup[" ++ cgroupPath ++ "]: " ++ e), w,
          [(Call.ExistPath cgroupPath, none), (Call.GetPidStrListByCgroup cgroupPath, some e)]⟩
      | (pidList, none) =>
        let l := recoverLoop u i pidList w
        match l.err with
        | some e =>
          ⟨some e, l.world,
            [(Call.ExistPath cgroupPath, none), (Call.GetPidStrListByCgroup cgroupPath, none)]
              ++ l.calls⟩
        | none =>
          let r := u.RemoveCgroup cgroupPath l.world
          ⟨r.1.map (fun e => "remove cgroup[" ++ cgroupPath ++ "] error: " ++ e), r.2,
            [(Call.ExistPath cgroupPath, none), (Call.GetPidStrListByCgroup cgroupPath, none)]
              ++ l.calls ++ [(Call.RemoveCgroup cgroupPath, r.1)]⟩

/-- `LimitInjector.Inject`; returns the injector as the call leaves it (the
method assigns `Runtime.OldCgroupMap`). -/
def Inject (u : Utils σ Dev Cfg) (i : LimitInjector) (w : σ) :
    LimitInjector × Outcome σ Call :=
  match u.GetPidListByListStrAndKey i.Args.PidList i.Args.Key w with
  | (_, some e) =>
    (i, ⟨some e, w, [(Call.GetPidListByListStrAndKey i.Args.PidList i.Args.Key, some e)]⟩)
  | (pidList, none) =>
    let c := u.GetPidListCurCgroup pidList w
    let i := { i with Runtime := { i.Runtime with OldCgroupMap := c.1 } }
    let pre1 := [(Call.GetPidListByListStrAndKey i.Args.PidList i.Args.Key, none),
                 (Call.GetPidListCurCgroup pidList, c.2)]
    match c.2 with
    | some e => (i, ⟨some ("get old path error: " ++ e), w, pre1⟩)
    | none =>
      let devList := (u.GetDevList i.Args.DevList).1
      let blkioPath := u.GetBlkioCPath i.Base.Info.Uid
      let n := u.NewCgroup blkioPath
        (u.GetBlkioConfig devList i.Args.ReadBytes i.Args.WriteBytes i.Args.ReadIO
          i.Args.WriteIO blkioPath) w
      match n.1 with
      | some e =>
        (i, ⟨some ("create cgroup[" ++ u.BlkioCgroupName ++ "] error: " ++ e), n.2,
          pre1 ++ [(Call.NewCgroup blkioPath, some e)]⟩)
      | none =>
        let m := u.MovePidListToCgroup pidList blkioPath n.2
        match m.1 with
        | some e =>
          let rc := Recover u i m.2
          (i, ⟨some e, rc.world,
            pre1 ++ [(Call.NewCgroup blkioPath, none),
                     (Call.MovePidListToCgroup pidList blkioPath, some e)] ++ rc.calls⟩)
        | none =>
          (i, ⟨none, m.2,
            pre1 ++ [(Call.NewCgroup blkioPath, none),
                     (Call.MovePidListToCgroup pidList blkioPath, none)]⟩)

/-- The path a pid is moved back to by `Recover`, below `BlkioPath`: the path
recorded in `Runtime.OldCgroupMap`, or `TmpCgroup` without a record. -/
def restorePath (u : Utils σ Dev Cfg) (i : LimitInjector) (pid : Int) : String :=
  u.BlkioPath ++ (i.Runtime.OldCgroupMap.lookup pid).getD u.TmpCgroup

/-- A successful move of `pid` back to its restore path, as a recorded call. -/
def movedBack (u : Utils σ Dev Cfg) (i : LimitInjector) (pid : Int) : Call × Option Error :=
  (Call.MoveToCgroup pid (restorePath u i pid), none)

/-- The state of the system after the pids of the list have been moved back,
one after the other in the order of the list, each to its restore path. -/
def restoreAll (u : Utils σ Dev Cfg) (i : LimitInjector) (pids : List Int) (w : σ) : σ :=
  pids.foldl (fun s pid => (u.MoveToCgroup pid (restorePath u i pid) s).2) w

/-- Whether a call changes the cgroups (a move, a removal or a creation). -/
def Call.isMutation : Call → Bool
  | Call.MoveToCgroup _ _ => true
  | Call.MovePidListToCgroup _ _ => true
  | Call.RemoveCgroup _ => true
  | Call.NewCgroup _ => true
  | _ => false

/-- A concrete system for the cgroup helpers: the cgroups of the blkio
hierarchy that exist, each with the pids listed in it, and the pids of the
processes that have exited. -/
structure CgState where
  cgroups : List (String × List Int)
  exited : List Int
  deriving DecidableEq, Repr

/-- Writing `pid` to the membership file of the cgroup `path`: fails when the
process has exited or the cgroup does not exist, else the pid leaves the
cgroup it was in and is listed in `path`. -/
def cgMove (pid : Int) (path : String) (s : CgState) : Option Error × CgState :=
  if pid ∈ s.exited then (some "no such process", s)
  else if s.cgroups.any (fun c => c.1 == path) then
    (none, { s with cgroups := s.cgroups.map (fun c =>
      if c.1 = path then (c.1, c.2.filter (fun p => p != pid) ++ [pid])
      else (c.1, c.2.filter (fun p => p != pid))) })
  else (some "no such file or directory", s)

/-- Removing the cgroup `path`: fails when it does not exist or still lists a
pid. -/
def cgRemove (path : String) (s : CgState) : Option Error × CgState :=
  match s.cgroups.lookup path with
  | none => (some "no such file or directory", s)
  | some [] => (none, { s with cgroups := s.cgroups.filter (fun c => c.1 != path) })
  | some (_ :: _) => (some "device or resource busy", s)

/-- Creating the cgroup `path`: fails when it exists already. -/
def cgNew (path : String) (s : CgState) : Option Error × CgState :=
  if s.cgroups.any (fun c => c.1 == path) then (some "file exists", s)
  else (none, { s with cgroups := s.cgroups ++ [(path, [])] })

/-- Moving a list of pids, stopping at the first failure. -/
def cgMoveList : List Int → String → CgState → Option Error × CgState
  | [], _, s => (none, s)
  | pid :: rest, path, s =>
    match cgMove pid path s with
    | (some e, s1) => (some e, s1)
    | (none, s1) => cgMoveList rest path s1

/-- The cgroup each pid of the list is in, without the `/blkio` root. -/
def cgCurrent (pids : List Int) (s : CgState) : List (Int × String) :=
  pids.filterMap (fun pid =>
    (s.cgroups.find? (fun c => c.2.contains pid)).map (fun c => (pid, String.mk (c.1.data.drop 6))))

/-- Helpers over `CgState`, with `/blkio` as root of the hierarchy, `/tmp` as
default bucket and `/blkio/cm_` ++ uid as injected cgroup.  A pid list is
read as one pid per decimal digit (`"1,2"` is the pids 1 and 2), devices and
limits are not interpreted. -/
def cgUtils : Utils CgState String Unit where
  BlkioPath := "/blkio"
  BlkioCgroupName := "cm"
  TmpCgroup := "/tmp"
  GetPidListByListStrAndKey := fun l _ _ =>
    if l = "" then ([], some "no pid")
    else ((l.data.filter Char.isDigit).map (fun c => ((c.toNat - 48 : Nat) : Int)), none)
  CheckPidListCgroup := fun _ _ => none
  GetDevList := fun d => if d = "" then ([], some "empty dev list") else ([d], none)
  GetBytes := fun b =>
    if b.data.all Char.isDigit then (b.length, none) else (0, some "not a number")
  GetPidListCurCgroup := fun pids s => (cgCurrent pids s, none)
  GetBlkioCPath := fun uid => "/blkio/cm_" ++ uid
  GetBlkioConfig := fun _ _ _ _ _ _ => ()
  NewCgroup := fun path _ s => cgNew path s
  MovePidListToCgroup := cgMoveList
  ExistPath := fun path s => (s.cgroups.any (fun c => c.1 == path), none)
  GetPidStrListByCgroup := fun path s =>
    match s.cgroups.lookup path with
    | some l => (l, none)
    | none => ([], some "no such file or directory")
  MoveToCgroup := cgMove
  RemoveCgroup := cgRemove
  BaseValidator := fun b s => (if b.Info.Uid = "" then some "uid is empty" else none, s)
  BaseRecover := fun b _ => if b.Info.Uid = "" then none else some "need to recover"

/-- A sample injector with UID `u1`, targeting the pids 1 and 2, that recorded
`/a` as the original cgroup of pid 1 and nothing for pid 2. -/
def limitSample : LimitInjector :=
  ⟨⟨⟨"u1", "", ""⟩⟩, ⟨"1,2", "", " 8:0 ", "100", "", 0, 0⟩, ⟨[(1, "/a")]⟩⟩

/-- A sample state after injection: pids 1 and 2 are in the injected cgroup,
the cgroup `/blkio/a` and the default bucket exist. -/
def cgInjected : CgState :=
  ⟨[("/blkio/cm_u1", [1, 2]), ("/blkio/a", []), ("/blkio/tmp", [])], []⟩

/-- A sample state before injection: pid 1 is in `/blkio/a`, pid 2, which has
exited, is still listed in `/blkio/b`. -/
def cgBefore : CgState :=
  ⟨[("/blkio/a", [1]), ("/blkio/b", [2]), ("/blkio/tmp", [])], [2]⟩

/-- A sample injector that asks for the valid limit `read-bytes` 100 together
with the negative `read-io` -5. -/
def limitNegativeIO : LimitInjector :=
  ⟨⟨⟨"u1", "", ""⟩⟩, ⟨"1,2", "", "8:0", "100", "", -5, 0⟩, ⟨[]⟩⟩

end diskio

/-! ## file-append (`chaosmetad/pkg/injector/file/append.go`) -/

namespace file

structure AppendArgs where
  Path : String
  Content : String
  Count : Int
  Interval : Int
  deriving DecidableEq, Repr

structure AppendRuntime where
  deriving DecidableEq, Repr

structure AppendInjector where
  Base : BaseInjector
  Args : AppendArgs
  Runtime : AppendRuntime
  deriving DecidableEq, Repr

/-- The helper calls on the system made by the file-append validator. -/
inductive Call where
  | BaseValidator
  | CheckFile (cr : String) (cId : String) (path : String)
  deriving DecidableEq, Repr

/-- The helpers used by `AppendInjector.SetDefault` and
`AppendInjector.Validator`, over a system state `σ`: the two base methods,
`filesys.IfPathAbs`, `filesys.CheckFile` and the package function
`decodeBase64`. -/
structure Utils (σ : Type) where
  BaseSetDefault : BaseInjector → BaseInjector
  BaseValidator : BaseInjector → σ → Option Error × σ
  IfPathAbs : String → Bool
  CheckFile : String → String → String → σ → Bool × Option Error
  decodeBase64 : String → String × Option Error

/-- `AppendInjector.SetDefault`. -/
def SetDefault {σ : Type} (u : Utils σ) (i : AppendInjector) : AppendInjector :=
  let i := { i with Base := u.BaseSetDefault i.Base }
  if i.Args.Count = 0 then
    { i with Args := { i.Args with Count := 1 } }
  else i

/-- `AppendInjector.Validator`. -/
def Validator {σ : Type} (u : Utils σ) (i : AppendInjector) (w : σ) : Outcome σ Call :=
  let b := u.BaseValidator i.Base w
  match b.1 with
  | some e => ⟨some e, b.2, [(Call.BaseValidator, some e)]⟩
  | none =>
    if i.Args.Count ≤ 0 then
      ⟨some "\"count\" must larger than 0", b.2, [(Call.BaseValidator, none)]⟩
    else if i.Args.Interval < 0 then
      ⟨some "\"interval\" can not less than 0", b.2, [(Call.BaseValidator, none)]⟩
    else if i.Args.Path = "" then
      ⟨some "\"path\" can not be empty", b.2, [(Call.BaseValidator, none)]⟩
    else if !u.IfPathAbs i.Args.Path then
      ⟨some "\"path\" must provide absolute path", b.2, [(Call.BaseValidator, none)]⟩
    else if i.Args.Content = "" then
      ⟨some "\"content\" can not be empty", b.2, [(Call.BaseValidator, none)]⟩
    else
      let probe := Call.CheckFile i.Base.Info.ContainerRuntime i.Base.Info.ContainerId i.Args.Path
      match u.CheckFile i.Base.Info.ContainerRuntime i.Base.Info.ContainerId i.Args.Path b.2 with
      | (_, some e) =>
        ⟨some ("check exist file[" ++ i.Args.Path ++ "] error: " ++ e), b.2,
          [(Call.BaseValidator, none), (probe, some e)]⟩
      | (false, none) =>
        ⟨some ("file[" ++ i.Args.Path ++ "] is not exist"), b.2,
          [(Call.BaseValidator, none), (probe, none)]⟩
      | (true, none) =>
        match (u.decodeBase64 i.Args.Content).2 with
        | some _ =>
          ⟨some "\"content is not a valid base64 format\"", b.2,
            [(Call.BaseValidator, none), (probe, none)]⟩
        | none => ⟨none, b.2, [(Call.BaseValidator, none), (probe, none)]⟩

/-- Whether a call probes the file system. -/
def Call.isProbe : Call → Bool
  | Call.CheckFile _ _ _ => true
  | Call.BaseValidator => false

/-- Whether a character belongs to the standard base64 alphabet. -/
def isBase64Char (c : Char) : Bool :=
  c.isAlphanum || c == '+' || c == '/'

/-- A concrete file system for the file-append helpers: the paths of the
files that exist. -/
structure FsState where
  files : List String
  deriving DecidableEq, Repr

/-- Helpers over `FsState`: a path is absolute when it starts with a slash, a
file exists when it is listed, and a content is accepted as base64 when its
length is a multiple of four and it is made of characters of the alphabet
followed by at most two padding characters (the decoded text is not
computed). -/
def fsUtils : Utils FsState where
  BaseSetDefault := fun b => b
  BaseValidator := fun b w => (if b.Info.Uid = "" then some "uid is empty" else none, w)
  IfPathAbs := fun p => p.data.head? == some '/'
  CheckFile := fun _ _ p w => (decide (p ∈ w.files), none)
  decodeBase64 := fun c =>
    let body := (c.data.reverse.dropWhile (fun x => x == '=')).reverse
    if c.length % 4 = 0 ∧ body.all isBase64Char ∧ c.length - body.length ≤ 2 then ("", none)
    else ("", some "illegal base64 data")

end file

/-! ## file system helpers (`chaosmetad/pkg/utils/filesys/filesystem.go`) -/

namespace filesys

/-- The least value of the Go type `int` (64 bits). -/
def MinInt : Int := -9223372036854775808

/-- The greatest value of the Go type `int` (64 bits). -/
def MaxInt : Int := 9223372036854775807

/-- The value of type `int` (64 bits, two's complement) that the result of an
addition or subtraction wraps around to. -/
def wrapInt (n : Int) : Int :=
  (n + 9223372036854775808) % 18446744073709551616 - 9223372036854775808

/-- The helper call made by `CreateFdFile`. -/
inductive Call where
  | RunBashCmdWithoutOutput (cmd : String)
  deriving DecidableEq, Repr

/-- The helper of package `cmdexec` used by `MkdirP` and `CreateFdFile`, over a
system state `σ`. -/
structure Utils (σ : Type) where
  RunBashCmdWithoutOutput : String → σ → Option Error × σ

/-- `MkdirP`. -/
def MkdirP {σ : Type} (u : Utils σ) (path : String) (w : σ) : Option Error × σ :=
  u.RunBashCmdWithoutOutput ("mkdir -p " ++ path) w

/-- The command of one batch of `CreateFdFile`:
`fmt.Sprintf("cd %s && touch %s{%d..%d}", dir, filePrefix, start, last)`. -/
def touchCmd (dir filePrefix : String) (start last : Int) : String :=
  "cd " ++ dir ++ " && touch " ++ filePrefix ++ "\x7b" ++ fmtInt start ++ ".." ++ fmtInt last ++ "\x7d"

/-- The loop `for end <= count` of `CreateFdFile`, run for at most `fuel`
iterations: `none` when the loop is still running after `fuel` iterations,
else the outcome of the loop. -/
def createLoop {σ : Type} (u : Utils σ) (dir filePrefix : String) (count step : Int) :
    Nat → Int → Int → σ → Option (Outcome σ Call)
  | 0, _, end_, w => if end_ ≤ count then none else some ⟨none, w, []⟩
  | fuel + 1, start, end_, w =>
    if end_ ≤ count then
      let r := u.RunBashCmdWithoutOutput (touchCmd dir filePrefix start (wrapInt (end_ - 1))) w
      match r.1 with
      | some e =>
        some ⟨some ("touch file from[" ++ fmtInt start ++ "] to[" ++ fmtInt end_ ++ "] error: "
            ++ e), r.2,
          [(Call.RunBashCmdWithoutOutput
              (touchCmd dir filePrefix start (wrapInt (end_ - 1))), some e)]⟩
      | none =>
        match createLoop u dir filePrefix count step fuel (wrapInt (start + step))
            (wrapInt (end_ + step)) r.2 with
        | none => none
        | some o =>
          some ⟨o.err, o.world,
            (Call.RunBashCmdWithoutOutput
              (touchCmd dir filePrefix start (wrapInt (end_ - 1))), none) :: o.calls⟩
    else some ⟨none, w, []⟩

/-- `CreateFdFile`, with at most `fuel` iterations of its loop. -/
def CreateFdFile {σ : Type} (u : Utils σ) (dir filePrefix : String) (count : Int)
    (fuel : Nat) (w : σ) : Option (Outcome σ Call) :=
  let m := MkdirP u dir w
  match m.1 with
  | some e =>
    some ⟨some ("create dir error: " ++ e), m.2,
      [(Call.RunBashCmdWithoutOutput ("mkdir -p " ++ dir), some e)]⟩
  | none =>
    let step := if 5000 > count then count else 5000
    match createLoop u dir filePrefix count step fuel 0 step m.2 with
    | none => none
    | some o =>
      some ⟨o.err, o.world, (Call.RunBashCmdWithoutOutput ("mkdir -p " ++ dir), none) :: o.calls⟩

/-- The value of `end` after `j` iterations of the loop of `CreateFdFile` that
started with the value `e`. -/
def endAfter (step : Int) : Nat → Int → Int
  | 0, e => e
  | j + 1, e => endAfter step j (wrapInt (e + step))

/-- A system in which every command succeeds; its state is the list of the
commands that were run. -/
def okShell : Utils (List String) where
  RunBashCmdWithoutOutput := fun cmd w => (none, w ++ [cmd])

/-- Go's `utf8.RuneError`. -/
def RuneError : Nat := 0xFFFD

/-- A Go string is the list of its bytes (numbers below 256).  This is Go's
decoding of the first rune of a string, as done by `range` over a string
(`utf8.DecodeRuneInString`): the rune and its width in bytes; bytes that do not
start a valid UTF-8 sequence give `RuneError` with width 1.  The bit operations
on the bytes are written with `%` and `*`. -/
def decodeRune : List Nat → Nat × Nat
  | [] => (RuneError, 0)
  | s0 :: rest =>
    if s0 < 0x80 then (s0, 1)
    else if s0 < 0xC2 then (RuneError, 1)
    else if s0 < 0xE0 then
      match rest with
      | s1 :: _ =>
        if 0x80 ≤ s1 ∧ s1 ≤ 0xBF then ((s0 % 32) * 64 + s1 % 64, 2) else (RuneError, 1)
      | [] => (RuneError, 1)
    else if s0 < 0xF0 then
      match rest with
      | s1 :: s2 :: _ =>
        if (if s0 = 0xE0 then 0xA0 else 0x80) ≤ s1 ∧ s1 ≤ (if s0 = 0xED then 0x9F else 0xBF) ∧
            0x80 ≤ s2 ∧ s2 ≤ 0xBF then
          ((s0 % 16) * 4096 + (s1 % 64) * 64 + s2 % 64, 3)
        else (RuneError, 1)
      | _ => (RuneError, 1)
    else if s0 < 0xF5 then
      match rest with
      | s1 :: s2 :: s3 :: _ =>
        if (if s0 = 0xF0 then 0x90 else 0x80) ≤ s1 ∧ s1 ≤ (if s0 = 0xF4 then 0x8F else 0xBF) ∧
            0x80 ≤ s2 ∧ s2 ≤ 0xBF ∧ 0x80 ≤ s3 ∧ s3 ≤ 0xBF then
          ((s0 % 8) * 262144 + (s1 % 64) * 4096 + (s2 % 64) * 64 + s3 % 64, 4)
        else (RuneError, 1)
      | _ => (RuneError, 1)
    else (RuneError, 1)

/-- The runes of at most `fuel` decoding steps over a string. -/
def runesAux : Nat → List Nat → List Nat
  | 0, _ => []
  | _ + 1, [] => []
  | fuel + 1, b :: rest =>
    (decodeRune (b :: rest)).1 ::
      runesAux fuel ((b :: rest).drop (decodeRune (b :: rest)).2)

/-- The runes that `for _, unit := range s` goes through (every step consumes
at least one byte, so as many steps as bytes are enough). -/
def runes (s : List Nat) : List Nat := runesAux s.length s

/-- The loop `for _, unit := range permission` of `CheckPermission`, over the
runes of the string. -/
def checkUnits : List Nat → Option Error
  | [] => none
  | unit :: rest =>
    if unit < 0x30 ∨ unit > 0x37 then some "num is not all in [0,7]"
    else checkUnits rest

/-- `CheckPermission`; `len` is the number of bytes of the string. -/
def CheckPermission (permission : List Nat) : Option Error :=
  if permission.length ≠ 3 then some "len is not equal 3"
  else checkUnits (runes permission)

end filesys

end chaosmeta

/-! # Theorems -/

namespace chaosmeta

/-! ## process-kill -/

namespace process

/-- C1: in `KillInjector.Validator`, when `Pid > 0`, `Signal > 0` and
`ExistPid` answers `false` without error, the validator returns the error
"pid[..] not exist", leaves the system as it was and has made the single call
`ExistPid`; and on every input no call made by the validator sends a signal
(neither `KillPidWithSignal` nor `KillProcessByKey`). -/
theorem validator_missing_pid_fails {σ : Type} (u : Utils σ) (i : KillInjector) (w : σ) :
    (i.Args.Pid > 0 → i.Args.Signal > 0 → u.ExistPid i.Args.Pid w = (false, none) →
      (Validator u i w).err = some ("pid[" ++ fmtInt i.Args.Pid ++ "] not exist") ∧
      (Validator u i w).world = w ∧
      (Validator u i w).calls = [(Call.ExistPid i.Args.Pid, none)]) ∧
    (∀ c ∈ (Validator u i w).calls, c.1.isSignal = false) := by
  constructor
  · intro hpid hsig hex
    have h1 : ¬ i.Args.Pid < 0 := by omega
    have h2 : ¬ (i.Args.Pid = 0 ∧ i.Args.Key = "") := by
      rintro ⟨h, _⟩
      omega
    have h3 : ¬ i.Args.Signal ≤ 0 := by omega
    simp only [Validator, h1, h2, h3, hpid, if_true, if_false, hex]
    exact ⟨trivial, trivial, trivial⟩
  · intro c hc
    unfold Validator at hc
    split_ifs at hc
    · simp at hc
    · simp at hc
    · simp at hc
    · split at hc <;> simp at hc <;> rcases hc with h | h <;> subst_vars <;> rfl
    · split at hc <;> simp at hc <;> rcases hc with h | h <;> subst_vars <;> rfl

/-- Witness of C1: pid 7 is not among the live pids 1 and 2. -/
theorem validator_missing_pid_fails_witness :
    (Validator procUtils ⟨⟨⟨"u1", "", ""⟩⟩, ⟨7, "", 9, ""⟩, ⟨⟩⟩ ⟨[1, 2], [], []⟩).err
      = some "pid[7] not exist" ∧
    (Validator procUtils ⟨⟨⟨"u1", "", ""⟩⟩, ⟨7, "", 9, ""⟩, ⟨⟩⟩ ⟨[1, 2], [], []⟩).calls
      = [(Call.ExistPid 7, none)] :=
  have h := (validator_missing_pid_fails procUtils ⟨⟨⟨"u1", "", ""⟩⟩, ⟨7, "", 9, ""⟩, ⟨⟩⟩
    ⟨[1, 2], [], []⟩).1 (by decide) (by decide) (by decide)
  ⟨h.1, h.2.2⟩

/-- The arguments are untouched by the base part of `SetDefault`: only
`Signal` can change, and only from 0 to `SIGKILL`. -/
theorem kill_SetDefault_Args {σ : Type} (u : Utils σ) (i : KillInjector) :
    (SetDefault u i).Args =
      { i.Args with Signal := if i.Args.Signal = 0 then SIGKILL else i.Args.Signal } := by
  unfold SetDefault
  by_cases h : i.Args.Signal = 0 <;> simp [h]

/-- C2: for `Pid > 0`, `SetDefault` followed by `Inject` makes exactly one
call, `KillPidWithSignal` on that pid, with signal 9 when `Signal` was 0 and
with the given signal (which `SetDefault` leaves unchanged) otherwise; the
state of the system afterwards is the state that this one call leaves, the
returned error is the error of this call, and the outcome does not depend on
`Key`. -/
theorem setDefault_inject_sends_sigkill {σ : Type} (u : Utils σ) (i : KillInjector) (w : σ)
    (hpid : i.Args.Pid > 0) :
    (i.Args.Signal = 0 →
      (Inject u (SetDefault u i) w).calls =
        [(Call.KillPidWithSignal i.Args.Pid 9, (u.KillPidWithSignal i.Args.Pid 9 w).1)] ∧
      (Inject u (SetDefault u i) w).world = (u.KillPidWithSignal i.Args.Pid 9 w).2 ∧
      (Inject u (SetDefault u i) w).err = (u.KillPidWithSignal i.Args.Pid 9 w).1) ∧
    (i.Args.Signal ≠ 0 →
      (SetDefault u i).Args.Signal = i.Args.Signal ∧
      (Inject u (SetDefault u i) w).calls =
        [(Call.KillPidWithSignal i.Args.Pid i.Args.Signal,
          (u.KillPidWithSignal i.Args.Pid i.Args.Signal w).1)] ∧
      (Inject u (SetDefault u i) w).world =
        (u.KillPidWithSignal i.Args.Pid i.Args.Signal w).2 ∧
      (Inject u (SetDefault u i) w).err =
        (u.KillPidWithSignal i.Args.Pid i.Args.Signal w).1) ∧
    (Inject u (SetDefault u i) w).err =
      (u.KillPidWithSignal i.Args.Pid (SetDefault u i).Args.Signal w).1 ∧
    (Inject u (SetDefault u i) w).world =
      (u.KillPidWithSignal i.Args.Pid (SetDefault u i).Args.Signal w).2 ∧
    (∀ k : String,
      Inject u (SetDefault u { i with Args := { i.Args with Key := k } }) w =
        Inject u (SetDefault u i) w) := by
  have hA := kill_SetDefault_Args u i
  refine ⟨?_, ?_, ?_, ?_, ?_⟩
  · intro h0
    simp only [Inject, hA, h0, if_true, hpid, SIGKILL]
    exact ⟨trivial, trivial, trivial⟩
  · intro h0
    simp only [Inject, hA, h0, if_false, hpid, if_true]
    exact ⟨trivial, trivial, trivial, trivial⟩
  · simp only [Inject, hA, hpid, if_true]
  · simp only [Inject, hA, hpid, if_true]
  · intro k
    have hB := kill_SetDefault_Args u { i with Args := { i.Args with Key := k } }
    simp only [Inject, hA, hB, hpid, if_true]

/-- Witness of C2: pid 2 is live and no signal was chosen; the one call is
`KillPidWithSignal 2 9`, and in the state afterwards signal 9 has been
delivered to pid 2 and to no other pid. -/
theorem setDefault_inject_sends_sigkill_witness :
    (Inject procUtils (SetDefault procUtils ⟨⟨⟨"u1", "", ""⟩⟩, ⟨2, "k", 0, ""⟩, ⟨⟩⟩)
      ⟨[1, 2], [], []⟩).calls = [(Call.KillPidWithSignal 2 9, none)] ∧
    (Inject procUtils (SetDefault procUtils ⟨⟨⟨"u1", "", ""⟩⟩, ⟨2, "k", 0, ""⟩, ⟨⟩⟩)
      ⟨[1, 2], [], []⟩).world = ⟨[1, 2], [(2, 9)], []⟩ ∧
    (Inject procUtils (SetDefault procUtils ⟨⟨⟨"u1", "", ""⟩⟩, ⟨2, "k", 0, ""⟩, ⟨⟩⟩)
      ⟨[1, 2], [], []⟩).err = none :=
  have h := (setDefault_inject_sends_sigkill procUtils ⟨⟨⟨"u1", "", ""⟩⟩, ⟨2, "k", 0, ""⟩, ⟨⟩⟩
    ⟨[1, 2], [], []⟩ (by decide)).1 rfl
  ⟨h.1, h.2.1, h.2.2⟩

/-- C3: `KillInjector.Recover` executes a command exactly when the base
`Recover` returns an error (work remains) and `RecoverCmd` is not empty; then
its only call is `StartBashCmd` on the unmodified `RecoverCmd` and its result
and final state are those of that call; in every other case it returns
success, calls nothing and leaves the system as it was. -/
theorem recover_runs_cmd_iff {σ : Type} (u : Utils σ) (i : KillInjector) (w : σ) :
    ((u.BaseRecover i.Base w ≠ none ∧ i.Args.RecoverCmd ≠ "") →
      (Recover u i w).err = (u.StartBashCmd i.Args.RecoverCmd w).1 ∧
      (Recover u i w).world = (u.StartBashCmd i.Args.RecoverCmd w).2 ∧
      (Recover u i w).calls =
        [(Call.StartBashCmd i.Args.RecoverCmd, (u.StartBashCmd i.Args.RecoverCmd w).1)]) ∧
    (¬ (u.BaseRecover i.Base w ≠ none ∧ i.Args.RecoverCmd ≠ "") →
      (Recover u i w).err = none ∧ (Recover u i w).world = w ∧ (Recover u i w).calls = []) := by
  unfold Recover
  by_cases hb : u.BaseRecover i.Base w = none
  · simp [hb]
  · by_cases hc : i.Args.RecoverCmd = ""
    · simp [hb, hc]
    · simp [hb, hc]

/-- Witness of C3: with work remaining and the recovery command
"systemctl start x", exactly that command is executed. -/
theorem recover_runs_cmd_iff_witness :
    (Recover procUtils ⟨⟨⟨"u1", "", ""⟩⟩, ⟨2, "", 9, "systemctl start x"⟩, ⟨⟩⟩
      ⟨[1], [], []⟩).calls = [(Call.StartBashCmd "systemctl start x", none)] ∧
    (Recover procUtils ⟨⟨⟨"u1", "", ""⟩⟩, ⟨2, "", 9, ""⟩, ⟨⟩⟩ ⟨[1], [], []⟩).calls = [] :=
  ⟨((recover_runs_cmd_iff procUtils ⟨⟨⟨"u1", "", ""⟩⟩, ⟨2, "", 9, "systemctl start x"⟩, ⟨⟩⟩
      ⟨[1], [], []⟩).1 ⟨by decide, by decide⟩).2.2,
   ((recover_runs_cmd_iff procUtils ⟨⟨⟨"u1", "", ""⟩⟩, ⟨2, "", 9, ""⟩, ⟨⟩⟩
      ⟨[1], [], []⟩).2 (by decide)).2.2⟩

end process

/-! ## diskio-limit -/

namespace diskio

variable {σ Dev Cfg : Type}

/-- One step of the recovery loop, with the restore path named. -/
theorem recoverLoop_cons (u : Utils σ Dev Cfg) (i : LimitInjector) (pid : Int)
    (rest : List Int) (w : σ) :
    recoverLoop u i (pid :: rest) w =
      match (u.MoveToCgroup pid (restorePath u i pid) w).1 with
      | some e =>
        ⟨some ("recover pid[" ++ fmtInt pid ++ "] error: " ++ e),
          (u.MoveToCgroup pid (restorePath u i pid) w).2,
          [(Call.MoveToCgroup pid (restorePath u i pid), some e)]⟩
      | none =>
        ⟨(recoverLoop u i rest (u.MoveToCgroup pid (restorePath u i pid) w).2).err,
          (recoverLoop u i rest (u.MoveToCgroup pid (restorePath u i pid) w).2).world,
          movedBack u i pid ::
            (recoverLoop u i rest (u.MoveToCgroup pid (restorePath u i pid) w).2).calls⟩ := by
  have hp : (match i.Runtime.OldCgroupMap.lookup pid with
      | some p => p
      | none => u.TmpCgroup) = (i.Runtime.OldCgroupMap.lookup pid).getD u.TmpCgroup := by
    cases i.Runtime.OldCgroupMap.lookup pid <;> rfl
  simp only [recoverLoop, restorePath, movedBack, hp]

/-- The calls of the recovery loop: either every pid is moved back and the loop
ends without error, or the loop stops at the first move that fails, which is
its last call. -/
theorem recoverLoop_calls (u : Utils σ Dev Cfg) (i : LimitInjector) (pids : List Int) (w : σ) :
    ((recoverLoop u i pids w).err = none ∧
      (recoverLoop u i pids w).calls = pids.map (movedBack u i)) ∨
    (∃ pre p post e, pids = pre ++ p :: post ∧
      (recoverLoop u i pids w).calls =
        pre.map (movedBack u i) ++ [(Call.MoveToCgroup p (restorePath u i p), some e)] ∧
      (recoverLoop u i pids w).err = some ("recover pid[" ++ fmtInt p ++ "] error: " ++ e)) := by
  induction pids generalizing w with
  | nil => left; exact ⟨rfl, rfl⟩
  | cons pid rest ih =>
    rw [recoverLoop_cons]
    cases hm : (u.MoveToCgroup pid (restorePath u i pid) w).1 with
    | some e =>
      right
      exact ⟨[], pid, rest, e, rfl, rfl, rfl⟩
    | none =>
      rcases ih (u.MoveToCgroup pid (restorePath u i pid) w).2 with ⟨h1, h2⟩ | ⟨pre, p, post, e, h1, h2, h3⟩
      · left
        exact ⟨h1, by simp [h2]⟩
      · right
        exact ⟨pid :: pre, p, post, e, by simp [h1], by simp [h2], h3⟩

/-- The state after a recovery loop that ended without error: every pid of the
list has been moved back, in order, and each of these moves succeeded in the
state left by the moves before it. -/
theorem recoverLoop_world (u : Utils σ Dev Cfg) (i : LimitInjector) (pids : List Int) :
    ∀ w : σ, (recoverLoop u i pids w).err = none →
      (recoverLoop u i pids w).world = restoreAll u i pids w ∧
      ∀ pre pid post, pids = pre ++ pid :: post →
        (u.MoveToCgroup pid (restorePath u i pid) (restoreAll u i pre w)).1 = none := by
  induction pids with
  | nil =>
    intro w _
    refine ⟨rfl, ?_⟩
    intro pre pid post h
    simp at h
  | cons p rest ih =>
    intro w h
    rw [recoverLoop_cons] at h ⊢
    cases hm : (u.MoveToCgroup p (restorePath u i p) w).1 with
    | some e => simp [hm] at h
    | none =>
      simp only [hm] at h ⊢
      have hrest := ih (u.MoveToCgroup p (restorePath u i p) w).2 h
      refine ⟨hrest.1, ?_⟩
      intro pre pid post hsplit
      cases pre with
      | nil =>
        simp only [List.nil_append, List.cons.injEq] at hsplit
        rw [← hsplit.1]
        exact hm
      | cons p1 pre1 =>
        simp only [List.cons_append, List.cons.injEq] at hsplit
        rw [← hsplit.1]
        exact hrest.2 pre1 pid post hsplit.2

/-- C4: when the base `Recover` reports work, the injected cgroup (the path
derived from the UID) exists and `Recover` returns success, then (1) the calls
of `Recover` are: the existence check, the listing of the pids of the injected
cgroup, then for every listed pid, in order, a successful move to `BlkioPath`
followed by its path in `Runtime.OldCgroupMap` (by `TmpCgroup` when it has no
entry), and last the successful removal of the injected cgroup; (2) the state
of the system afterwards is the state in which every listed pid has been moved
to that path, one after the other, and the injected cgroup has then been
removed; (3) each of these moves, in the state left by the moves before it,
and the removal after all of them, returned no error. -/
theorem recover_success_restores_all (u : Utils σ Dev Cfg) (i : LimitInjector) (w : σ)
    (hbase : u.BaseRecover i.Base w ≠ none)
    (hexist : u.ExistPath (u.GetBlkioCPath i.Base.Info.Uid) w = (true, none))
    (hok : (Recover u i w).err = none) :
    (Recover u i w).calls =
      [(Call.ExistPath (u.GetBlkioCPath i.Base.Info.Uid), none),
       (Call.GetPidStrListByCgroup (u.GetBlkioCPath i.Base.Info.Uid), none)]
      ++ (u.GetPidStrListByCgroup (u.GetBlkioCPath i.Base.Info.Uid) w).1.map
          (fun pid => (Call.MoveToCgroup pid
            (u.BlkioPath ++ (i.Runtime.OldCgroupMap.lookup pid).getD u.TmpCgroup), none))
      ++ [(Call.RemoveCgroup (u.GetBlkioCPath i.Base.Info.Uid), none)] ∧
    (Recover u i w).world =
      (u.RemoveCgroup (u.GetBlkioCPath i.Base.Info.Uid)
        ((u.GetPidStrListByCgroup (u.GetBlkioCPath i.Base.Info.Uid) w).1.foldl
          (fun s pid => (u.MoveToCgroup pid
            (u.BlkioPath ++ (i.Runtime.OldCgroupMap.lookup pid).getD u.TmpCgroup) s).2) w)).2 ∧
    (∀ pre pid post,
      (u.GetPidStrListByCgroup (u.GetBlkioCPath i.Base.Info.Uid) w).1 = pre ++ pid :: post →
      (u.MoveToCgroup pid
        (u.BlkioPath ++ (i.Runtime.OldCgroupMap.lookup pid).getD u.TmpCgroup)
        (pre.foldl (fun s p => (u.MoveToCgroup p
          (u.BlkioPath ++ (i.Runtime.OldCgroupMap.lookup p).getD u.TmpCgroup) s).2) w)).1
        = none) ∧
    (u.RemoveCgroup (u.GetBlkioCPath i.Base.Info.Uid)
      ((u.GetPidStrListByCgroup (u.GetBlkioCPath i.Base.Info.Uid) w).1.foldl
        (fun s pid => (u.MoveToCgroup pid
          (u.BlkioPath ++ (i.Runtime.OldCgroupMap.lookup pid).getD u.TmpCgroup) s).2) w)).1
      = none := by
  unfold Recover at hok ⊢
  simp only [hbase, if_false, hexist] at hok ⊢
  rcases hg : u.GetPidStrListByCgroup (u.GetBlkioCPath i.Base.Info.Uid) w with ⟨pids, ge⟩
  rw [hg] at hok
  cases ge with
  | some e => simp at hok
  | none =>
    simp only at hok ⊢
    rcases recoverLoop_calls u i pids w with ⟨h1, h2⟩ | ⟨pre, p, post, e, _, _, h3⟩
    · have hw := recoverLoop_world u i pids w h1
      simp only [h1] at hok ⊢
      have hr : (u.RemoveCgroup (u.GetBlkioCPath i.Base.Info.Uid)
          (recoverLoop u i pids w).world).1 = none := by
        cases hr : (u.RemoveCgroup (u.GetBlkioCPath i.Base.Info.Uid)
          (recoverLoop u i pids w).world).1 with
        | none => rfl
        | some e => simp [hr] at hok
      refine ⟨?_, ?_, ?_, ?_⟩
      · rw [h2, hr]
        rfl
      · rw [hw.1]
        rfl
      · intro pre pid post hsplit
        exact hw.2 pre pid post hsplit
      · rw [hw.1] at hr
        exact hr
    · simp [h3] at hok

/-- Witness of C4: pids 1 and 2 are in the injected cgroup of `u1`; pid 1 goes
back to its recorded `/a`, pid 2, without record, to the default bucket, and
the injected cgroup is removed. -/
theorem recover_success_restores_all_witness :
    (Recover cgUtils limitSample cgInjected).calls =
      [(Call.ExistPath "/blkio/cm_u1", none),
       (Call.GetPidStrListByCgroup "/blkio/cm_u1", none),
       (Call.MoveToCgroup 1 "/blkio/a", none),
       (Call.MoveToCgroup 2 "/blkio/tmp", none),
       (Call.RemoveCgroup "/blkio/cm_u1", none)] ∧
    (Recover cgUtils limitSample cgInjected).world =
      ⟨[("/blkio/a", [1]), ("/blkio/tmp", [2])], []⟩ :=
  have h := recover_success_restores_all cgUtils limitSample cgInjected
    (by decide) (by decide) (by decide)
  ⟨h.1, h.2.1.trans (by decide)⟩

/-- C5: when the pids are resolved, their cgroups recorded, the cgroup created
and `MovePidListToCgroup` fails with `e`, then `Inject` runs `Recover` (on the
injector with the recorded `OldCgroupMap`, in the state left by the failed
move) and returns exactly `e`, whatever that `Recover` returns: the final
state and the remaining calls are those of that `Recover`. -/
theorem inject_rollback_returns_move_error (u : Utils σ Dev Cfg) (i : LimitInjector) (w : σ)
    (pids : List Int) (e : Error)
    (hp : u.GetPidListByListStrAndKey i.Args.PidList i.Args.Key w = (pids, none))
    (hc : (u.GetPidListCurCgroup pids w).2 = none)
    (hn : (u.NewCgroup (u.GetBlkioCPath i.Base.Info.Uid)
      (u.GetBlkioConfig (u.GetDevList i.Args.DevList).1 i.Args.ReadBytes i.Args.WriteBytes
        i.Args.ReadIO i.Args.WriteIO (u.GetBlkioCPath i.Base.Info.Uid)) w).1 = none)
    (hm : (u.MovePidListToCgroup pids (u.GetBlkioCPath i.Base.Info.Uid)
      (u.NewCgroup (u.GetBlkioCPath i.Base.Info.Uid)
        (u.GetBlkioConfig (u.GetDevList i.Args.DevList).1 i.Args.ReadBytes i.Args.WriteBytes
          i.Args.ReadIO i.Args.WriteIO (u.GetBlkioCPath i.Base.Info.Uid)) w).2).1 = some e) :
    (Inject u i w).2.err = some e ∧
    (Inject u i w).1 =
      { i with Runtime := { i.Runtime with OldCgroupMap := (u.GetPidListCurCgroup pids w).1 } } ∧
    (Inject u i w).2.world =
      (Recover u (Inject u i w).1
        (u.MovePidListToCgroup pids (u.GetBlkioCPath i.Base.Info.Uid)
          (u.NewCgroup (u.GetBlkioCPath i.Base.Info.Uid)
            (u.GetBlkioConfig (u.GetDevList i.Args.DevList).1 i.Args.ReadBytes i.Args.WriteBytes
              i.Args.ReadIO i.Args.WriteIO (u.GetBlkioCPath i.Base.Info.Uid)) w).2).2).world ∧
    (Inject u i w).2.calls =
      [(Call.GetPidListByListStrAndKey i.Args.PidList i.Args.Key, none),
       (Call.GetPidListCurCgroup pids, none),
       (Call.NewCgroup (u.GetBlkioCPath i.Base.Info.Uid), none),
       (Call.MovePidListToCgroup pids (u.GetBlkioCPath i.Base.Info.Uid), some e)] ++
      (Recover u (Inject u i w).1
        (u.MovePidListToCgroup pids (u.GetBlkioCPath i.Base.Info.Uid)
          (u.NewCgroup (u.GetBlkioCPath i.Base.Info.Uid)
            (u.GetBlkioConfig (u.GetDevList i.Args.DevList).1 i.Args.ReadBytes i.Args.WriteBytes
              i.Args.ReadIO i.Args.WriteIO (u.GetBlkioCPath i.Base.Info.Uid)) w).2).2).calls := by
  simp only [Inject, hp, hc, hn, hm, List.cons_append, List.nil_append, List.append_assoc]
  exact ⟨trivial, trivial, trivial, trivial⟩

/-- Witness of C5: pid 2 has exited, so the move into the new cgroup fails
with "no such process"; `Inject` returns that error after its `Recover` has
moved pid 1 back and removed the cgroup. -/
theorem inject_rollback_returns_move_error_witness :
    (Inject cgUtils limitSample cgBefore).2.err = some "no such process" ∧
    (Inject cgUtils limitSample cgBefore).2.world = cgBefore :=
  have h := inject_rollback_returns_move_error cgUtils limitSample cgBefore [1, 2]
    "no such process" (by decide) (by decide) (by decide) (by decide)
  ⟨h.1, by decide⟩

/-- `Recover` does nothing when the base `Recover` reports no work or the
injected cgroup does not exist. -/
theorem Recover_nothing_to_do (u : Utils σ Dev Cfg) (i : LimitInjector) (w : σ)
    (h : u.BaseRecover i.Base w = none ∨
      u.ExistPath (u.GetBlkioCPath i.Base.Info.Uid) w = (false, none)) :
    (Recover u i w).err = none ∧ (Recover u i w).world = w ∧
    (∀ c ∈ (Recover u i w).calls, c.1.isMutation = false) := by
  unfold Recover
  by_cases hb : u.BaseRecover i.Base w = none
  · simp [hb]
  · rcases h with h | h
    · exact absurd h hb
    · simp only [hb, if_false, h]
      refine ⟨trivial, trivial, ?_⟩
      intro c hc
      simp only [List.mem_singleton] at hc
      subst hc
      rfl

/-- In the concrete cgroup model a removed cgroup no longer exists. -/
theorem cgRemove_absent (path : String) (s : CgState) (h : (cgRemove path s).1 = none) :
    cgUtils.ExistPath path (cgRemove path s).2 = (false, none) := by
  unfold cgRemove at h ⊢
  split at h
  · simp at h
  · rename_i heq
    simp only [heq, cgUtils, Prod.mk.injEq, and_true]
    rw [List.any_eq_false]
    intro c hc
    have := (List.mem_filter.1 hc).2
    simpa using this
  · simp at h

/-- C7: provided a successful `RemoveCgroup` leaves a state in which the
removed path does not exist, in every state reached by a successful `Recover`
a second `Recover` of the same injector returns success, leaves the state
unchanged and makes no call that moves a pid, removes or creates a cgroup. -/
theorem recover_twice_is_noop (u : Utils σ Dev Cfg) (i : LimitInjector) (w : σ)
    (hrm : ∀ w1, (u.RemoveCgroup (u.GetBlkioCPath i.Base.Info.Uid) w1).1 = none →
      u.ExistPath (u.GetBlkioCPath i.Base.Info.Uid)
        (u.RemoveCgroup (u.GetBlkioCPath i.Base.Info.Uid) w1).2 = (false, none))
    (hok : (Recover u i w).err = none) :
    (Recover u i (Recover u i w).world).err = none ∧
    (Recover u i (Recover u i w).world).world = (Recover u i w).world ∧
    (∀ c ∈ (Recover u i (Recover u i w).world).calls, c.1.isMutation = false) := by
  apply Recover_nothing_to_do
  unfold Recover at hok ⊢
  by_cases hb : u.BaseRecover i.Base w = none
  · left
    simp [hb]
  · right
    simp only [hb, if_false] at hok ⊢
    rcases he : u.ExistPath (u.GetBlkioCPath i.Base.Info.Uid) w with ⟨b, ee⟩
    rw [he] at hok
    cases ee with
    | some e => simp at hok
    | none =>
      cases b with
      | false => simpa using he
      | true =>
        simp only at hok ⊢
        rcases hg : u.GetPidStrListByCgroup (u.GetBlkioCPath i.Base.Info.Uid) w with ⟨pids, ge⟩
        rw [hg] at hok
        cases ge with
        | some e => simp at hok
        | none =>
          simp only at hok ⊢
          cases hl : (recoverLoop u i pids w).err with
          | some e => simp [hl] at hok
          | none =>
            simp only [hl] at hok ⊢
            apply hrm
            cases hr : (u.RemoveCgroup (u.GetBlkioCPath i.Base.Info.Uid)
              (recoverLoop u i pids w).world).1 with
            | none => rfl
            | some e => simp [hr] at hok

/-- Witness of C7: after the recovery that moved the pids 1 and 2 back and
removed the injected cgroup, a second recovery changes nothing. -/
theorem recover_twice_is_noop_witness :
    (Recover cgUtils limitSample cgInjected).world = ⟨[("/blkio/a", [1]), ("/blkio/tmp", [2])], []⟩ ∧
    (Recover cgUtils limitSample (Recover cgUtils limitSample cgInjected).world).err = none ∧
    (Recover cgUtils limitSample (Recover cgUtils limitSample cgInjected).world).world =
      (Recover cgUtils limitSample cgInjected).world :=
  have h := recover_twice_is_noop cgUtils limitSample cgInjected
    (fun w1 h1 => cgRemove_absent _ w1 h1) (by decide)
  ⟨by decide, h.1, h.2.1⟩

/-- Counterexample to C9: the device list " 8:0 " has a blank on both sides;
the validator succeeds and leaves "8:0" in `Args.DevList`. -/
theorem validator_trims_DevList :
    limitSample.Args.DevList = " 8:0 " ∧
    (Validator cgUtils limitSample cgBefore).2.err = none ∧
    (Validator cgUtils limitSample cgBefore).1.Args.DevList = "8:0" ∧
    (Validator cgUtils limitSample cgBefore).1.Args ≠ limitSample.Args := by
  decide

/-- C9 as amended: `LimitInjector.Validator` leaves `Runtime` and the embedded
base as they were, and every field of `Args` except `DevList`; `DevList` is
replaced by `TrimSpace DevList` once the pid list is resolved and its cgroup
check passed, and is untouched when one of these two steps fails. -/
theorem validator_changes_only_DevList (u : Utils σ Dev Cfg) (i : LimitInjector) (w : σ) :
    (Validator u i w).1.Runtime = i.Runtime ∧
    (Validator u i w).1.Base = i.Base ∧
    (Validator u i w).1.Args =
      { i.Args with
        DevList :=
          if (u.GetPidListByListStrAndKey i.Args.PidList i.Args.Key w).2 = none ∧
              u.CheckPidListCgroup
                (u.GetPidListByListStrAndKey i.Args.PidList i.Args.Key w).1 w = none
          then TrimSpace i.Args.DevList else i.Args.DevList } := by
  unfold Validator
  rcases hp : u.GetPidListByListStrAndKey i.Args.PidList i.Args.Key w with ⟨pids, pe⟩
  cases pe with
  | some e => simp
  | none =>
    simp only
    cases hc : u.CheckPidListCgroup pids w with
    | some e => simp
    | none =>
      simp only
      split <;> simp

end diskio

/-! ## file-append -/

namespace file

/-- The arguments are untouched by the base part of `SetDefault`: only `Count`
can change, and only from 0 to 1. -/
theorem append_SetDefault_Args {σ : Type} (u : Utils σ) (i : AppendInjector) :
    (SetDefault u i).Args =
      { i.Args with Count := if i.Args.Count = 0 then 1 else i.Args.Count } := by
  unfold SetDefault
  by_cases h : i.Args.Count = 0 <;> simp [h]

/-- Two append injectors with the same three parts are equal. -/
theorem appendInjector_eq_of_parts {x y : AppendInjector} (hb : x.Base = y.Base)
    (ha : x.Args = y.Args) (hr : x.Runtime = y.Runtime) : x = y := by
  cases x
  cases y
  simp_all

/-- The base part of the injector after `SetDefault`. -/
theorem append_SetDefault_Base {σ : Type} (u : Utils σ) (i : AppendInjector) :
    (SetDefault u i).Base = u.BaseSetDefault i.Base := by
  unfold SetDefault
  by_cases h : i.Args.Count = 0 <;> simp [h]

/-- The runtime part of the injector after `SetDefault`. -/
theorem append_SetDefault_Runtime {σ : Type} (u : Utils σ) (i : AppendInjector) :
    (SetDefault u i).Runtime = i.Runtime := by
  unfold SetDefault
  by_cases h : i.Args.Count = 0 <;> simp [h]

end file

namespace process

/-- Two kill injectors with the same three parts are equal. -/
theorem killInjector_eq_of_parts {x y : KillInjector} (hb : x.Base = y.Base)
    (ha : x.Args = y.Args) (hr : x.Runtime = y.Runtime) : x = y := by
  cases x
  cases y
  simp_all

/-- The base part of the injector after `SetDefault`. -/
theorem kill_SetDefault_Base {σ : Type} (u : Utils σ) (i : KillInjector) :
    (SetDefault u i).Base = u.BaseSetDefault i.Base := by
  unfold SetDefault
  by_cases h : i.Args.Signal = 0 <;> simp [h]

/-- The runtime part of the injector after `SetDefault`. -/
theorem kill_SetDefault_Runtime {σ : Type} (u : Utils σ) (i : KillInjector) :
    (SetDefault u i).Runtime = i.Runtime := by
  unfold SetDefault
  by_cases h : i.Args.Signal = 0 <;> simp [h]

end process

/-- C8: for every `KillInjector` and every `AppendInjector`, the arguments after
two `SetDefault` are the arguments after one; when the base `SetDefault` is
idempotent the whole injector after two calls is the injector after one;
`Signal` becomes 9 and `Count` becomes 1 when they are 0, and the arguments are
unchanged when they are not. -/
theorem setDefault_idempotent {σ τ : Type} (uk : process.Utils σ) (ua : file.Utils τ)
    (k : process.KillInjector) (a : file.AppendInjector) :
    (process.SetDefault uk (process.SetDefault uk k)).Args = (process.SetDefault uk k).Args ∧
    (file.SetDefault ua (file.SetDefault ua a)).Args = (file.SetDefault ua a).Args ∧
    ((∀ b, uk.BaseSetDefault (uk.BaseSetDefault b) = uk.BaseSetDefault b) →
      process.SetDefault uk (process.SetDefault uk k) = process.SetDefault uk k) ∧
    ((∀ b, ua.BaseSetDefault (ua.BaseSetDefault b) = ua.BaseSetDefault b) →
      file.SetDefault ua (file.SetDefault ua a) = file.SetDefault ua a) ∧
    (k.Args.Signal ≠ 0 → (process.SetDefault uk k).Args = k.Args) ∧
    (k.Args.Signal = 0 → (process.SetDefault uk k).Args = { k.Args with Signal := 9 }) ∧
    (a.Args.Count ≠ 0 → (file.SetDefault ua a).Args = a.Args) ∧
    (a.Args.Count = 0 → (file.SetDefault ua a).Args = { a.Args with Count := 1 }) := by
  have hk : (process.SetDefault uk (process.SetDefault uk k)).Args
      = (process.SetDefault uk k).Args := by
    rw [process.kill_SetDefault_Args uk (process.SetDefault uk k), process.kill_SetDefault_Args uk k]
    by_cases h : k.Args.Signal = 0 <;> simp [h, process.SIGKILL]
  have ha : (file.SetDefault ua (file.SetDefault ua a)).Args = (file.SetDefault ua a).Args := by
    rw [file.append_SetDefault_Args ua (file.SetDefault ua a), file.append_SetDefault_Args ua a]
    by_cases h : a.Args.Count = 0 <;> simp [h]
  refine ⟨hk, ha, ?_, ?_, ?_, ?_, ?_, ?_⟩
  · intro hb
    have h1 := process.kill_SetDefault_Base uk (process.SetDefault uk k)
    have h2 := process.kill_SetDefault_Runtime uk (process.SetDefault uk k)
    rw [process.kill_SetDefault_Base uk k, hb] at h1
    rw [← process.kill_SetDefault_Base uk k] at h1
    rw [← process.kill_SetDefault_Runtime uk k] at h2
    exact process.killInjector_eq_of_parts h1 hk h2
  · intro hb
    have h1 := file.append_SetDefault_Base ua (file.SetDefault ua a)
    have h2 := file.append_SetDefault_Runtime ua (file.SetDefault ua a)
    rw [file.append_SetDefault_Base ua a, hb] at h1
    rw [← file.append_SetDefault_Base ua a] at h1
    rw [← file.append_SetDefault_Runtime ua a] at h2
    exact file.appendInjector_eq_of_parts h1 ha h2
  · intro h
    rw [process.kill_SetDefault_Args]
    simp [h]
  · intro h
    rw [process.kill_SetDefault_Args]
    simp [h, process.SIGKILL]
  · intro h
    rw [file.append_SetDefault_Args]
    simp [h]
  · intro h
    rw [file.append_SetDefault_Args]
    simp [h]

/-- Witness of C8: a kill injector without signal and an append injector
without count, with a base `SetDefault` that changes nothing. -/
theorem setDefault_idempotent_witness :
    process.SetDefault process.procUtils
        (process.SetDefault process.procUtils ⟨⟨⟨"u1", "", ""⟩⟩, ⟨2, "", 0, ""⟩, ⟨⟩⟩)
      = process.SetDefault process.procUtils ⟨⟨⟨"u1", "", ""⟩⟩, ⟨2, "", 0, ""⟩, ⟨⟩⟩ ∧
    file.SetDefault file.fsUtils
        (file.SetDefault file.fsUtils ⟨⟨⟨"u1", "", ""⟩⟩, ⟨"/tmp/f", "aGVsbG8=", 0, 0⟩, ⟨⟩⟩)
      = file.SetDefault file.fsUtils ⟨⟨⟨"u1", "", ""⟩⟩, ⟨"/tmp/f", "aGVsbG8=", 0, 0⟩, ⟨⟩⟩ ∧
    (process.SetDefault process.procUtils ⟨⟨⟨"u1", "", ""⟩⟩, ⟨2, "", 0, ""⟩, ⟨⟩⟩).Args
      = ⟨2, "", 9, ""⟩ ∧
    (file.SetDefault file.fsUtils ⟨⟨⟨"u1", "", ""⟩⟩, ⟨"/tmp/f", "aGVsbG8=", 0, 0⟩, ⟨⟩⟩).Args
      = ⟨"/tmp/f", "aGVsbG8=", 1, 0⟩ :=
  have h := setDefault_idempotent process.procUtils file.fsUtils
    ⟨⟨⟨"u1", "", ""⟩⟩, ⟨2, "", 0, ""⟩, ⟨⟩⟩ ⟨⟨⟨"u1", "", ""⟩⟩, ⟨"/tmp/f", "aGVsbG8=", 0, 0⟩, ⟨⟩⟩
  ⟨h.2.2.1 (fun _ => rfl), h.2.2.2.1 (fun _ => rfl), h.2.2.2.2.2.1 rfl,
    h.2.2.2.2.2.2.2 rfl⟩

namespace file

/-- C10: `AppendInjector.Validator` returns success exactly when the base
validator succeeds, `Count > 0`, `Interval >= 0`, `Path` is not empty and
absolute, `Content` is not empty, `CheckFile` answers `true` without error and
`Content` decodes as base64; and when the base validator has succeeded and one
of the conditions on count, interval, path or empty content fails, the
validator returns one of the five errors on the arguments having called
nothing but the base validator (`CheckFile` is not called). -/
theorem validator_ok_iff {σ : Type} (u : Utils σ) (i : AppendInjector) (w : σ) :
    ((Validator u i w).err = none ↔
      ((u.BaseValidator i.Base w).1 = none ∧ i.Args.Count > 0 ∧ i.Args.Interval ≥ 0 ∧
        i.Args.Path ≠ "" ∧ u.IfPathAbs i.Args.Path = true ∧ i.Args.Content ≠ "" ∧
        u.CheckFile i.Base.Info.ContainerRuntime i.Base.Info.ContainerId i.Args.Path
          (u.BaseValidator i.Base w).2 = (true, none) ∧
        (u.decodeBase64 i.Args.Content).2 = none)) ∧
    ((u.BaseValidator i.Base w).1 = none →
      (i.Args.Count ≤ 0 ∨ i.Args.Interval < 0 ∨ i.Args.Path = "" ∨
        u.IfPathAbs i.Args.Path = false ∨ i.Args.Content = "") →
      (Validator u i w).err ∈
        [some "\"count\" must larger than 0", some "\"interval\" can not less than 0",
         some "\"path\" can not be empty", some "\"path\" must provide absolute path",
         some "\"content\" can not be empty"] ∧
      (Validator u i w).calls = [(Call.BaseValidator, none)]) ∧
    (∀ c ∈ (Validator u i w).calls, c.1.isProbe = true →
      (u.BaseValidator i.Base w).1 = none ∧ i.Args.Count > 0 ∧ i.Args.Interval ≥ 0 ∧
        i.Args.Path ≠ "" ∧ u.IfPathAbs i.Args.Path = true ∧ i.Args.Content ≠ "") := by
  unfold Validator
  cases hb : (u.BaseValidator i.Base w).1 with
  | some e => simp [hb, Call.isProbe]
  | none =>
    simp only [hb]
    by_cases h1 : i.Args.Count ≤ 0
    · have : ¬ i.Args.Count > 0 := by omega
      simp [h1, this, Call.isProbe]
    · have h1p : i.Args.Count > 0 := by omega
      by_cases h2 : i.Args.Interval < 0
      · have : ¬ i.Args.Interval ≥ 0 := by omega
        simp [h1, h2, this, Call.isProbe]
      · have h2p : i.Args.Interval ≥ 0 := by omega
        by_cases h3 : i.Args.Path = ""
        · simp [h1, h2, h3, Call.isProbe]
        · cases h4 : u.IfPathAbs i.Args.Path with
          | false => simp [h1, h2, h3, Call.isProbe]
          | true =>
            by_cases h5 : i.Args.Content = ""
            · simp [h1, h2, h3, h5, Call.isProbe]
            · simp only [h1, h2, h3, h5, h1p, h2p, if_false, Bool.not_true, ne_eq,
                not_false_eq_true, true_and, or_self, false_or, Bool.true_eq_false,
                IsEmpty.forall_iff, Bool.false_eq_true]
              rcases hc : u.CheckFile i.Base.Info.ContainerRuntime i.Base.Info.ContainerId
                i.Args.Path (u.BaseValidator i.Base w).2 with ⟨ex, ce⟩
              cases ce with
              | some e => simp
              | none =>
                cases ex with
                | false => simp
                | true =>
                  cases hd : (u.decodeBase64 i.Args.Content).2 with
                  | some e => simp
                  | none => simp

/-- Witness of C10: the file `/tmp/f` exists and the content is the base64 of
"hello"; the validator succeeds.  With count 0 it fails before the probe. -/
theorem validator_ok_iff_witness :
    (Validator fsUtils ⟨⟨⟨"u1", "", ""⟩⟩, ⟨"/tmp/f", "aGVsbG8=", 3, 0⟩, ⟨⟩⟩ ⟨["/tmp/f"]⟩).err
      = none ∧
    (Validator fsUtils ⟨⟨⟨"u1", "", ""⟩⟩, ⟨"/tmp/f", "aGVsbG8=", 0, 0⟩, ⟨⟩⟩ ⟨["/tmp/f"]⟩).calls
      = [(Call.BaseValidator, none)] :=
  ⟨(validator_ok_iff fsUtils ⟨⟨⟨"u1", "", ""⟩⟩, ⟨"/tmp/f", "aGVsbG8=", 3, 0⟩, ⟨⟩⟩
      ⟨["/tmp/f"]⟩).1.2 (by decide),
   ((validator_ok_iff fsUtils ⟨⟨⟨"u1", "", ""⟩⟩, ⟨"/tmp/f", "aGVsbG8=", 0, 0⟩, ⟨⟩⟩
      ⟨["/tmp/f"]⟩).2.1 (by decide) (by decide)).2⟩

end file

namespace diskio

/-- C11, the code at a failing input: with `read-bytes` "100" and `read-io` -5
(pids and device list valid) `LimitInjector.Validator` returns no error: the
only test of the IO counts is the joint test that no limit at all is given,
and a negative count next to another limit passes it. -/
theorem validator_accepts_negative_io :
    limitNegativeIO.Args.ReadIO = -5 ∧
    limitNegativeIO.Args.ReadBytes = "100" ∧
    (Validator cgUtils limitNegativeIO cgBefore).2.err = none ∧
    (Validator cgUtils { limitNegativeIO with
        Args := { limitNegativeIO.Args with ReadBytes := "", WriteIO := 3 } } cgBefore).2.err
      = none ∧
    (Validator cgUtils { limitNegativeIO with
        Args := { limitNegativeIO.Args with ReadBytes := "" } } cgBefore).2.err
      = some "must provide at least one valid args of: read-bytes、write-bytes、read-io、write-io" := by
  decide

end diskio

/-! ## file system helpers -/

namespace filesys

/-- A value of type `int` is not changed by wrapping. -/
theorem wrapInt_of_inRange (n : Int) (h1 : MinInt ≤ n) (h2 : n ≤ MaxInt) : wrapInt n = n := by
  unfold MinInt at h1
  unfold MaxInt at h2
  unfold wrapInt
  omega

/-- A value below the least `int`, by at most 2^63, wraps to that value plus
2^64. -/
theorem wrapInt_of_below (n : Int) (h1 : -18446744073709551616 ≤ n) (h2 : n < MinInt) :
    wrapInt n = n + 18446744073709551616 := by
  unfold MinInt at h2
  unfold wrapInt
  omega

/-- The loop is over as soon as `end <= count` fails. -/
theorem createLoop_exit {σ : Type} (u : Utils σ) (dir filePrefix : String) (count step : Int)
    (fuel : Nat) (start e : Int) (w : σ) (h : ¬ e ≤ count) :
    createLoop u dir filePrefix count step fuel start e w = some ⟨none, w, []⟩ := by
  cases fuel <;> simp [createLoop, h]

/-- When every command succeeds and `end <= count` holds before each of the
first `n` iterations and fails after them, the loop ends without error after
exactly `n` commands when it is given `n` iterations, and is still running
after fewer. -/
theorem createLoop_iterations {σ : Type} (u : Utils σ) (dir filePrefix : String)
    (count step : Int) (hok : ∀ cmd w, (u.RunBashCmdWithoutOutput cmd w).1 = none) (n : Nat) :
    ∀ (fuel : Nat) (start e : Int) (w : σ),
      (∀ j < n, endAfter step j e ≤ count) → ¬ endAfter step n e ≤ count →
      (n ≤ fuel → ∃ o, createLoop u dir filePrefix count step fuel start e w = some o ∧
        o.err = none ∧ o.calls.length = n) ∧
      (fuel < n → createLoop u dir filePrefix count step fuel start e w = none) := by
  induction n with
  | zero =>
    intro fuel start e w _ hexit
    refine ⟨fun _ => ⟨⟨none, w, []⟩, createLoop_exit u dir filePrefix count step fuel start e w hexit,
      rfl, rfl⟩, fun h => absurd h (Nat.not_lt_zero _)⟩
  | succ n ih =>
    intro fuel start e w hrun hexit
    have h0 : e ≤ count := hrun 0 (Nat.succ_pos n)
    cases fuel with
    | zero =>
      refine ⟨fun h => absurd h (Nat.not_succ_le_zero n), fun _ => ?_⟩
      simp [createLoop, h0]
    | succ fuel =>
      have hstep := ih fuel (wrapInt (start + step)) (wrapInt (e + step))
        (u.RunBashCmdWithoutOutput (touchCmd dir filePrefix start (wrapInt (e - 1))) w).2
        (fun j hj => hrun (j + 1) (Nat.succ_lt_succ hj)) hexit
      constructor
      · intro hle
        rcases hstep.1 (Nat.le_of_succ_le_succ hle) with ⟨o, ho, he, hl⟩
        refine ⟨⟨o.err, o.world, (Call.RunBashCmdWithoutOutput
          (touchCmd dir filePrefix start (wrapInt (e - 1))), none) :: o.calls⟩, ?_, he, ?_⟩
        · simp only [createLoop, h0, if_true, hok, ho]
        · simp [hl]
      · intro hlt
        have hnone := hstep.2 (Nat.lt_of_succ_lt_succ hlt)
        simp only [createLoop, h0, if_true, hok, hnone]

/-- When every command succeeds and `end <= count` holds before every
iteration, the loop is still running after any number of iterations. -/
theorem createLoop_never_exits {σ : Type} (u : Utils σ) (dir filePrefix : String)
    (count step : Int) (hok : ∀ cmd w, (u.RunBashCmdWithoutOutput cmd w).1 = none) :
    ∀ (fuel : Nat) (start e : Int) (w : σ), (∀ j, endAfter step j e ≤ count) →
      createLoop u dir filePrefix count step fuel start e w = none := by
  intro fuel
  induction fuel with
  | zero =>
    intro start e w h
    have h0 : e ≤ count := h 0
    simp [createLoop, h0]
  | succ fuel ih =>
    intro start e w h
    have h0 : e ≤ count := h 0
    have hrec := ih (wrapInt (start + step)) (wrapInt (e + step))
      (u.RunBashCmdWithoutOutput (touchCmd dir filePrefix start (wrapInt (e - 1))) w).2
      (fun j => h (j + 1))
    simp only [createLoop, h0, if_true, hok, hrec]

/-- The value of `end` one iteration later. -/
theorem endAfter_succ (step : Int) (j : Nat) (e : Int) :
    endAfter step (j + 1) e = wrapInt (endAfter step j e + step) := by
  induction j generalizing e with
  | zero => rfl
  | succ j ih =>
    show endAfter step (j + 1) (wrapInt (e + step)) = _
    rw [ih]
    rfl

/-- As long as no addition overflows, `end` has grown by `step` in each
iteration. -/
theorem endAfter_eq (step : Int) (j : Nat) (e : Int)
    (h : ∀ i : Nat, 1 ≤ i → i ≤ j → MinInt ≤ e + i * step ∧ e + i * step ≤ MaxInt) :
    endAfter step j e = e + j * step := by
  induction j generalizing e with
  | zero => simp [endAfter]
  | succ j ih =>
    have h1 := h 1 (le_refl 1) (Nat.succ_le_succ (Nat.zero_le j))
    simp only [Nat.cast_one, one_mul] at h1
    show endAfter step j (wrapInt (e + step)) = _
    rw [wrapInt_of_inRange _ h1.1 h1.2, ih]
    · push_cast
      ring
    · intro i hi1 hij
      have h2 := h (i + 1) (Nat.succ_le_succ (Nat.zero_le i)) (Nat.succ_le_succ hij)
      push_cast at h2
      have e1 : e + step + (i : Int) * step = e + ((i : Int) + 1) * step := by ring
      rw [e1]
      exact h2

/-- For `1 <= count <= MaxInt - 5000` the test `end <= count` holds before
each of the first `count / step` iterations and fails after them. -/
theorem endAfter_positive (count : Int) (h1 : 1 ≤ count) (h2 : count ≤ MaxInt - 5000) :
    (∀ j < (count / min count 5000).toNat,
      endAfter (min count 5000) j (min count 5000) ≤ count) ∧
    ¬ endAfter (min count 5000) (count / min count 5000).toNat (min count 5000) ≤ count := by
  unfold MaxInt at h2
  have hs1 : 1 ≤ min count 5000 := by omega
  have hs2 : min count 5000 ≤ 5000 := by omega
  generalize min count 5000 = s at hs1 hs2 ⊢
  have hq0 : 0 ≤ count / s := Int.ediv_nonneg (by omega) (by omega)
  have hn : (((count / s).toNat : Nat) : Int) = count / s := Int.toNat_of_nonneg hq0
  have hlo : count / s * s ≤ count := Int.ediv_mul_le count (by omega)
  have hhi : count < (count / s + 1) * s := Int.lt_ediv_add_one_mul_self count (by omega)
  generalize (count / s).toNat = n at hn ⊢
  generalize count / s = q at hn hq0 hlo hhi
  subst hn
  have hmul : ∀ i : Nat, i ≤ n → (i : Int) * s ≤ (n : Int) * s := fun i hi =>
    mul_le_mul_of_nonneg_right (by exact_mod_cast hi) (by omega)
  have hpos : ∀ i : Nat, 0 ≤ (i : Int) * s := fun i =>
    mul_nonneg (by exact_mod_cast Nat.zero_le i) (by omega)
  have hrange : ∀ i : Nat, i ≤ n → MinInt ≤ s + i * s ∧ s + i * s ≤ MaxInt := by
    intro i hi
    have a := hmul i hi
    have b := hpos i
    unfold MinInt MaxInt
    constructor <;> linarith
  have hval : ∀ j : Nat, j ≤ n → endAfter s j s = s + j * s := fun j hj =>
    endAfter_eq s j s (fun i _ hij => hrange i (le_trans hij hj))
  constructor
  · intro j hj
    rw [hval j (le_of_lt hj)]
    have a := hmul (j + 1) hj
    push_cast at a
    linarith
  · rw [hval n (le_refl n)]
    linarith

/-- For `count = 0` the test `end <= count` holds before every iteration. -/
theorem endAfter_zero (j : Nat) : endAfter 0 j 0 ≤ 0 := by
  rw [endAfter_eq 0 j 0 (fun i _ _ => by simp [MinInt, MaxInt])]
  simp

/-- For a negative `count` of type `int` the test `end <= count` holds before
each of the first `2^63 / -count` iterations; the next addition wraps around
and the test fails. -/
theorem endAfter_negative (count : Int) (h1 : count < 0) (h2 : MinInt ≤ count) :
    (∀ j < (9223372036854775808 / (-count)).toNat, endAfter count j count ≤ count) ∧
    ¬ endAfter count (9223372036854775808 / (-count)).toNat count ≤ count := by
  unfold MinInt at h2
  have hq0 : 0 ≤ 9223372036854775808 / (-count) := Int.ediv_nonneg (by omega) (by omega)
  have hq1 : 1 ≤ 9223372036854775808 / (-count) :=
    (Int.le_ediv_iff_mul_le (by omega : 0 < -count)).2 (by omega)
  have hn : (((9223372036854775808 / (-count)).toNat : Nat) : Int)
      = 9223372036854775808 / (-count) := Int.toNat_of_nonneg hq0
  have hlo : 9223372036854775808 / (-count) * (-count) ≤ 9223372036854775808 :=
    Int.ediv_mul_le _ (by omega)
  have hhi : 9223372036854775808 < (9223372036854775808 / (-count) + 1) * (-count) :=
    Int.lt_ediv_add_one_mul_self _ (by omega)
  generalize (9223372036854775808 / (-count)).toNat = n at hn ⊢
  generalize 9223372036854775808 / (-count) = q at hn hq0 hq1 hlo hhi
  subst hn
  have hmul : ∀ i : Nat, i ≤ n → (i : Int) * (-count) ≤ (n : Int) * (-count) := fun i hi =>
    mul_le_mul_of_nonneg_right (by exact_mod_cast hi) (by omega)
  have hpos : ∀ i : Nat, 0 ≤ (i : Int) * (-count) := fun i =>
    mul_nonneg (by exact_mod_cast Nat.zero_le i) (by omega)
  have hrange : ∀ i : Nat, i + 1 ≤ n → MinInt ≤ count + i * count ∧ count + i * count ≤ MaxInt := by
    intro i hi
    have a := hmul (i + 1) hi
    have b := hpos i
    push_cast at a
    unfold MinInt MaxInt
    constructor <;> linarith
  have hval : ∀ j : Nat, j + 1 ≤ n → endAfter count j count = count + j * count := fun j hj =>
    endAfter_eq count j count (fun i _ hij => hrange i (le_trans (Nat.succ_le_succ hij) hj))
  constructor
  · intro j hj
    rw [hval j hj]
    have b := hpos j
    linarith
  · have hn1 : 1 ≤ n := by exact_mod_cast hq1
    obtain ⟨m, rfl⟩ : ∃ m, n = m + 1 := ⟨n - 1, by omega⟩
    rw [endAfter_succ, hval m (le_refl _)]
    have a := hmul m (Nat.le_succ m)
    have b := hpos m
    push_cast at hlo hhi a
    rw [wrapInt_of_below]
    · linarith
    · linarith
    · unfold MinInt
      linarith

/-- With commands that succeed, `CreateFdFile` is `mkdir -p` followed by its
loop started at `start = 0`, `end = step`, `step` the smaller of `count` and
5000. -/
theorem CreateFdFile_eq_loop {σ : Type} (u : Utils σ) (dir filePrefix : String) (count : Int)
    (fuel : Nat) (w : σ) (hok : ∀ cmd w, (u.RunBashCmdWithoutOutput cmd w).1 = none) :
    CreateFdFile u dir filePrefix count fuel w =
      (createLoop u dir filePrefix count (min count 5000) fuel 0 (min count 5000)
        (u.RunBashCmdWithoutOutput ("mkdir -p " ++ dir) w).2).map
        (fun o => ⟨o.err, o.world,
          (Call.RunBashCmdWithoutOutput ("mkdir -p " ++ dir), none) :: o.calls⟩) := by
  have hstep : (if 5000 > count then count else 5000) = min count 5000 := by
    split <;> omega
  simp only [CreateFdFile, MkdirP, hok, hstep]
  cases createLoop u dir filePrefix count (min count 5000) fuel 0 (min count 5000)
    (u.RunBashCmdWithoutOutput ("mkdir -p " ++ dir) w).2 <;> rfl

/-- With commands that succeed: when `end <= count` holds before each of the
first `n` iterations and fails after them, `CreateFdFile` returns success
after `mkdir -p` and exactly `n` batches, and has not returned before the
`n`-th iteration is done. -/
theorem CreateFdFile_iterations {σ : Type} (u : Utils σ) (dir filePrefix : String)
    (count : Int) (w : σ) (hok : ∀ cmd w, (u.RunBashCmdWithoutOutput cmd w).1 = none) (n : Nat)
    (hrun : ∀ j < n, endAfter (min count 5000) j (min count 5000) ≤ count)
    (hexit : ¬ endAfter (min count 5000) n (min count 5000) ≤ count) :
    (∀ fuel, n ≤ fuel → ∃ o, CreateFdFile u dir filePrefix count fuel w = some o ∧
      o.err = none ∧ o.calls.length = n + 1) ∧
    (∀ fuel, fuel < n → CreateFdFile u dir filePrefix count fuel w = none) := by
  constructor
  · intro fuel hf
    rcases (createLoop_iterations u dir filePrefix count (min count 5000) hok n fuel 0
      (min count 5000) (u.RunBashCmdWithoutOutput ("mkdir -p " ++ dir) w).2 hrun hexit).1 hf
      with ⟨o, ho, he, hl⟩
    rw [CreateFdFile_eq_loop u dir filePrefix count fuel w hok, ho]
    exact ⟨_, rfl, he, by simp [hl]⟩
  · intro fuel hf
    rw [CreateFdFile_eq_loop u dir filePrefix count fuel w hok,
      (createLoop_iterations u dir filePrefix count (min count 5000) hok n fuel 0
        (min count 5000) (u.RunBashCmdWithoutOutput ("mkdir -p " ++ dir) w).2 hrun hexit).2 hf]
    rfl

/-- C12, the code at a failing input: with `count = 7000` and commands that
succeed, `CreateFdFile` returns success after `mkdir -p` and the single batch
`touch f{0..4999}`; the indices 5000 to 6999 are in no batch.  With
`count = 12000` the batches stop at 9999. -/
theorem createFdFile_drops_last_batch :
    (CreateFdFile okShell "/d" "f" 7000 4 []).map (fun o => (o.err, o.calls)) =
      some (none, [(Call.RunBashCmdWithoutOutput "mkdir -p /d", none),
        (Call.RunBashCmdWithoutOutput "cd /d && touch f\x7b0..4999\x7d", none)]) ∧
    (CreateFdFile okShell "/d" "f" 12000 4 []).map (fun o => (o.err, o.calls)) =
      some (none, [(Call.RunBashCmdWithoutOutput "mkdir -p /d", none),
        (Call.RunBashCmdWithoutOutput "cd /d && touch f\x7b0..4999\x7d", none),
        (Call.RunBashCmdWithoutOutput "cd /d && touch f\x7b5000..9999\x7d", none)]) := by
  decide

/-- Counterexample to C13: with the negative `count = -2^63` (the least `int`)
the loop of `CreateFdFile` is left after one iteration, and with
`count = -2^62` after two: `end += step` wraps around to a value above
`count`, and `CreateFdFile` returns success. -/
theorem createFdFile_negative_count_exits :
    MinInt < 0 ∧
    (CreateFdFile okShell "/d" "f" MinInt 1 []).map (fun o => (o.err, o.calls.length)) =
      some (none, 2) ∧
    (CreateFdFile okShell "/d" "f" (-4611686018427387904) 2 []).map
      (fun o => (o.err, o.calls.length)) = some (none, 3) ∧
    (CreateFdFile okShell "/d" "f" (-4611686018427387904) 1 []).isSome = false := by
  decide

/-- C13 as amended: with commands that all succeed and `int` of 64 bits,
(1) for `1 <= count <= MaxInt - 5000` the loop of `CreateFdFile` is left after
exactly `count / min(count, 5000)` iterations (given that many iterations the
function returns success having run `mkdir -p` and that many batches, given
fewer it has not returned); (2) for `count = 0` the function has not returned
after any number of iterations; (3) for `count < 0` the loop is left after
exactly `2^63 / -count` iterations, when `end` wraps around. -/
theorem createFdFile_termination {σ : Type} (u : Utils σ) (dir filePrefix : String)
    (count : Int) (w : σ) (hok : ∀ cmd w, (u.RunBashCmdWithoutOutput cmd w).1 = none) :
    (1 ≤ count → count ≤ MaxInt - 5000 →
      (∀ fuel, (count / min count 5000).toNat ≤ fuel →
        ∃ o, CreateFdFile u dir filePrefix count fuel w = some o ∧ o.err = none ∧
          o.calls.length = (count / min count 5000).toNat + 1) ∧
      (∀ fuel, fuel < (count / min count 5000).toNat →
        CreateFdFile u dir filePrefix count fuel w = none)) ∧
    (count = 0 → ∀ fuel, CreateFdFile u dir filePrefix count fuel w = none) ∧
    (count < 0 → MinInt ≤ count →
      (∀ fuel, (9223372036854775808 / (-count)).toNat ≤ fuel →
        ∃ o, CreateFdFile u dir filePrefix count fuel w = some o ∧ o.err = none ∧
          o.calls.length = (9223372036854775808 / (-count)).toNat + 1) ∧
      (∀ fuel, fuel < (9223372036854775808 / (-count)).toNat →
        CreateFdFile u dir filePrefix count fuel w = none)) := by
  refine ⟨?_, ?_, ?_⟩
  · intro h1 h2
    exact CreateFdFile_iterations u dir filePrefix count w hok _
      (endAfter_positive count h1 h2).1 (endAfter_positive count h1 h2).2
  · intro h0 fuel
    subst h0
    rw [CreateFdFile_eq_loop u dir filePrefix 0 fuel w hok]
    have hmin : min (0 : Int) 5000 = 0 := by decide
    rw [hmin, createLoop_never_exits u dir filePrefix 0 0 hok fuel 0 0 _ endAfter_zero]
    rfl
  · intro h1 h2
    have hmin : min count 5000 = count := by omega
    have h := endAfter_negative count h1 h2
    apply CreateFdFile_iterations u dir filePrefix count w hok
    · rw [hmin]
      exact h.1
    · rw [hmin]
      exact h.2

/-- Witness of C13 as amended: in a shell where every command succeeds,
`count = 12000` takes two iterations (one is not enough), `count = 0` has not
finished after seven. -/
theorem createFdFile_termination_witness :
    (∃ o, CreateFdFile okShell "/d" "f" 12000 2 [] = some o ∧ o.err = none ∧
      o.calls.length = 3) ∧
    CreateFdFile okShell "/d" "f" 12000 1 [] = none ∧
    CreateFdFile okShell "/d" "f" 0 7 [] = none :=
  have h := createFdFile_termination okShell "/d" "f" 12000 [] (fun _ _ => rfl)
  have h0 := createFdFile_termination okShell "/d" "f" 0 [] (fun _ _ => rfl)
  ⟨(h.1 (by decide) (by decide)).1 2 (by decide),
   (h.1 (by decide) (by decide)).2 1 (by decide),
   h0.2.1 rfl 7⟩

/-- A byte below 0x80 is a rune of width 1. -/
theorem decodeRune_ascii (b : Nat) (rest : List Nat) (h : b < 0x80) :
    decodeRune (b :: rest) = (b, 1) := by
  simp [decodeRune, h]

/-- A string that starts with a byte from 0x80 on starts with a rune from 0x80
on (a rune of several bytes, or `RuneError`). -/
theorem decodeRune_high (b : Nat) (rest : List Nat) (h : 0x80 ≤ b) :
    0x80 ≤ (decodeRune (b :: rest)).1 := by
  rcases rest with _ | ⟨s1, _ | ⟨s2, _ | ⟨s3, rest⟩⟩⟩ <;>
    simp only [decodeRune] <;> split_ifs <;> simp only [RuneError] <;> omega

/-- A string whose runes are all below 0x80 has its bytes as runes. -/
theorem runesAux_of_small (fuel : Nat) :
    ∀ s : List Nat, s.length ≤ fuel → (∀ r ∈ runesAux fuel s, r < 0x80) →
      runesAux fuel s = s := by
  induction fuel with
  | zero =>
    intro s hl _
    have : s = [] := List.length_eq_zero.1 (Nat.le_zero.1 hl)
    subst this
    rfl
  | succ fuel ih =>
    intro s hl h
    cases s with
    | nil => rfl
    | cons b rest =>
      have hb : b < 0x80 := by
        by_contra hge
        have h1 := decodeRune_high b rest (by omega)
        have h2 := h (decodeRune (b :: rest)).1 (by simp [runesAux])
        omega
      have hd := decodeRune_ascii b rest hb
      have hrest : runesAux fuel rest = rest := by
        apply ih rest (by simpa using hl)
        intro r hr
        apply h r
        simp [runesAux, hd, hr]
      simp [runesAux, hd, hrest]

/-- A string of bytes below 0x80 has its bytes as runes. -/
theorem runesAux_of_ascii (fuel : Nat) :
    ∀ s : List Nat, s.length ≤ fuel → (∀ b ∈ s, b < 0x80) → runesAux fuel s = s := by
  induction fuel with
  | zero =>
    intro s hl _
    have : s = [] := List.length_eq_zero.1 (Nat.le_zero.1 hl)
    subst this
    rfl
  | succ fuel ih =>
    intro s hl h
    cases s with
    | nil => rfl
    | cons b rest =>
      have hd := decodeRune_ascii b rest (h b (by simp))
      have hrest : runesAux fuel rest = rest :=
        ih rest (by simpa using hl) (fun x hx => h x (by simp [hx]))
      simp [runesAux, hd, hrest]

/-- The loop over the runes returns no error exactly when every rune is one of
the digits '0' to '7'. -/
theorem checkUnits_eq_none (l : List Nat) :
    checkUnits l = none ↔ ∀ unit ∈ l, 0x30 ≤ unit ∧ unit ≤ 0x37 := by
  induction l with
  | nil => simp [checkUnits]
  | cons unit rest ih =>
    by_cases h : unit < 0x30 ∨ unit > 0x37
    · simp only [checkUnits, h, if_true, List.mem_cons, forall_eq_or_imp]
      constructor
      · intro hh
        exact absurd hh (by simp)
      · intro hh
        omega
    · simp only [checkUnits, h, if_false, List.mem_cons, forall_eq_or_imp, ih]
      constructor
      · intro hh
        exact ⟨by omega, hh⟩
      · intro hh
        exact hh.2

/-- C14: `CheckPermission` returns success exactly when the string consists of
three characters (runes) that are each one of the digits '0' to '7', which is
exactly when it consists of three bytes that are each one of these digits;
every other string is rejected with one of the two errors. -/
theorem checkPermission_ok_iff (permission : List Nat) :
    (CheckPermission permission = none ↔
      (runes permission).length = 3 ∧ ∀ unit ∈ runes permission, 0x30 ≤ unit ∧ unit ≤ 0x37) ∧
    (CheckPermission permission = none ↔
      permission.length = 3 ∧ ∀ b ∈ permission, 0x30 ≤ b ∧ b ≤ 0x37) ∧
    (CheckPermission permission = none ∨
      CheckPermission permission = some "len is not equal 3" ∨
      CheckPermission permission = some "num is not all in [0,7]") := by
  have hsmall : (∀ unit ∈ runes permission, 0x30 ≤ unit ∧ unit ≤ 0x37) →
      runes permission = permission := fun h =>
    runesAux_of_small permission.length permission (le_refl _)
      (fun r hr => by have := h r hr; omega)
  have hascii : (∀ b ∈ permission, 0x30 ≤ b ∧ b ≤ 0x37) → runes permission = permission :=
    fun h => runesAux_of_ascii permission.length permission (le_refl _)
      (fun b hb => by have := h b hb; omega)
  refine ⟨?_, ?_, ?_⟩
  · unfold CheckPermission
    by_cases hl : permission.length = 3
    · simp only [hl, ne_eq, not_true_eq_false, if_false, checkUnits_eq_none]
      constructor
      · intro h
        exact ⟨by rw [hsmall h, hl], h⟩
      · intro h
        exact h.2
    · simp only [hl, ne_eq, not_false_eq_true, if_true]
      constructor
      · intro h
        exact absurd h (by simp)
      · intro h
        rw [hsmall h.2] at h
        exact absurd h.1 hl
  · unfold CheckPermission
    by_cases hl : permission.length = 3
    · simp only [hl, ne_eq, not_true_eq_false, if_false, checkUnits_eq_none, true_and]
      constructor
      · intro h
        have := hsmall h
        rw [this] at h
        exact h
      · intro h
        rw [hascii h]
        exact h
    · simp [hl]
  · unfold CheckPermission
    by_cases hl : permission.length = 3
    · simp only [hl, ne_eq, not_true_eq_false, if_false]
      generalize runes permission = l
      induction l with
      | nil => left; rfl
      | cons unit rest ih =>
        by_cases h : unit < 0x30 ∨ unit > 0x37
        · right; right
          simp [checkUnits, h]
        · simpa [checkUnits, h] using ih
    · right; left
      simp [hl]

/-- Witness of C14: "755" (bytes 0x37 0x35 0x35) is accepted; "758", "75", the
two characters "é7" (three bytes) and the single character "€" (three bytes)
are rejected. -/
theorem checkPermission_ok_iff_witness :
    CheckPermission [0x37, 0x35, 0x35] = none ∧
    CheckPermission [0x37, 0x35, 0x38] ≠ none ∧
    CheckPermission [0x37, 0x35] ≠ none ∧
    CheckPermission [0xC3, 0xA9, 0x37] ≠ none ∧
    CheckPermission [0xE2, 0x82, 0xAC] ≠ none :=
  ⟨(checkPermission_ok_iff [0x37, 0x35, 0x35]).2.1.2 (by decide),
   fun h => absurd ((checkPermission_ok_iff [0x37, 0x35, 0x38]).2.1.1 h) (by decide),
   fun h => absurd ((checkPermission_ok_iff [0x37, 0x35]).2.1.1 h) (by decide),
   fun h => absurd ((checkPermission_ok_iff [0xC3, 0xA9, 0x37]).1.1 h) (by decide),
   fun h => absurd ((checkPermission_ok_iff [0xE2, 0x82, 0xAC]).1.1 h) (by decide)⟩

end filesys

end chaosmeta
